import Mathlib

/-!
Verification of the user-data synchronization engine
(`vs/platform/userDataSync`): the remote store client's HTTP error
mapping, the `AbstractSynchroniser` sync/doSync state machine, and the
`KeybindingsSynchroniser` preview/apply/accept cycle, shallowly embedded
as executable Lean functions over an explicit world state.
-/

namespace UserDataSync

/-- `UserDataSyncErrorCode` from `userDataSync.ts`. -/
inductive SyncErrorCode where
  | unauthorized
  | forbidden
  | connectionRefused
  | remotePreconditionFailed
  | tooLarge
  | noRef
  | turnedOff
  | sessionExpired
  | localPreconditionFailed
  | localInvalidContent
  | localError
  | incompatible
  | unknown
deriving DecidableEq, Repr

/-- `SyncStatus` from `userDataSync.ts`. -/
inductive SyncStatus where
  | uninitialized
  | idle
  | syncing
  | hasConflicts
deriving DecidableEq, Repr

section StoreClient

/-!
## Remote store client (`UserDataSyncStoreService`)

The HTTP layer: a request either fails at the network level
(`requestService.request` throws) or yields a response with a status
code, an optional `ETag` header and an optional text body.
-/

/-- An HTTP response as seen by `UserDataSyncStoreService`. -/
structure HttpResponse where
  statusCode : Nat
  etag : Option String
  body : Option String
deriving DecidableEq, Repr

/-- `IUserData`: one versioned blob over the wire. -/
structure HttpUserData where
  ref : String
  content : Option String
deriving DecidableEq, Repr

/-- Modelled from the spec: `isSuccess` (from `vs/platform/request/common/request`)
is not in the source tree; per the spec a non-2xx/304 response raises a typed
error, so success is `200 ≤ status < 300`. -/
def isSuccessCode (s : Nat) : Bool := 200 ≤ s && s < 300

/-- `UserDataSyncStoreService.request`: requires an auth token, attaches it,
issues the request (`outcome = none` models `requestService.request` throwing,
mapped to `ConnectionRefused`), then maps 401 (additionally calling
`authTokenService.sendTokenFailed()`), 403, 412 and 413 to typed errors and
returns every other response to the caller.  The boolean records whether
`sendTokenFailed` was called. -/
def request (authToken : Option String) (outcome : Option HttpResponse) :
    Except SyncErrorCode HttpResponse × Bool :=
  match authToken with
  | none => (.error .unauthorized, false)
  | some _ =>
    match outcome with
    | none => (.error .connectionRefused, false)
    | some r =>
      if r.statusCode == 401 then (.error .unauthorized, true)
      else if r.statusCode == 403 then (.error .forbidden, false)
      else if r.statusCode == 412 then (.error .remotePreconditionFailed, false)
      else if r.statusCode == 413 then (.error .tooLarge, false)
      else (.ok r, false)

/-- `UserDataSyncStoreService.read`: conditional GET of the latest resource.
A 304 answer returns the previously cached value unchanged; a non-success
answer raises `Unknown`; a success without an `ETag` header (`if (!ref)`,
so a missing or empty header) raises `NoRef`; otherwise the `ETag` becomes
the new ref and the body the content. -/
def storeServiceRead (authToken : Option String) (oldValue : Option HttpUserData)
    (outcome : Option HttpResponse) :
    Except SyncErrorCode (Option HttpUserData) × Bool :=
  match request authToken outcome with
  | (.error e, b) => (.error e, b)
  | (.ok r, b) =>
    if r.statusCode == 304 then (.ok oldValue, b)
    else if !(isSuccessCode r.statusCode) then (.error .unknown, b)
    else
      match r.etag with
      | none => (.error .noRef, b)
      | some ref =>
        if ref == "" then (.error .noRef, b)
        else (.ok (some { ref := ref, content := r.body }), b)

/-- `UserDataSyncStoreService.write`: conditional POST.  A non-success answer
raises `Unknown`; a success without an `ETag` raises `NoRef`; otherwise the
`ETag` is the new ref. -/
def storeServiceWrite (authToken : Option String) (outcome : Option HttpResponse) :
    Except SyncErrorCode String × Bool :=
  match request authToken outcome with
  | (.error e, b) => (.error e, b)
  | (.ok r, b) =>
    if !(isSuccessCode r.statusCode) then (.error .unknown, b)
    else
      match r.etag with
      | none => (.error .noRef, b)
      | some ref =>
        if ref == "" then (.error .noRef, b)
        else (.ok ref, b)

end StoreClient

/-!
## Engine world model

Refs are opaque, ETag-like version tokens, monotonically changing on every
successful write; the model represents them as naturals issued from a
fresh-ref counter.  The `SyncData` envelope's `content` is, on the wire, the
JSON serialization of the `ISyncContent` record of `keybindingsSync.ts`
(per-platform slots `mac`/`linux`/`windows` plus `all`); since the JSON codec
round-trips, the model stores the parsed record directly.
-/

abbrev Ref := Nat

/-- `ISyncContent` from `keybindingsSync.ts`. -/
structure KbSyncContent where
  mac : Option String
  linux : Option String
  windows : Option String
  all : Option String
deriving DecidableEq, Repr

/-- `OperatingSystem` from `vs/base/common/platform`. -/
inductive OSKind where
  | macintosh
  | linux
  | windows
deriving DecidableEq, Repr

/-- `ISyncData`: the versioned envelope stored inside `IUserData.content`. -/
structure SyncData where
  version : Nat
  content : KbSyncContent
deriving DecidableEq, Repr

/-- `IRemoteUserData`: parsed form of a remote read; `syncData = none` means
the remote resource does not exist yet. -/
structure RemoteUserData where
  ref : Ref
  syncData : Option SyncData
deriving DecidableEq, Repr

/-- `IFileContent` as used by the synchroniser: the file's text plus its
modification stamp, used as the optimistic-concurrency precondition for
local writes. -/
structure FileContent where
  value : String
  mtime : Nat
deriving DecidableEq, Repr

/-- The durable state the engine interacts with: the local keybindings file,
the remote store (current ref and data plus the fresh-ref counter), the
last-sync checkpoint file, the backup store and the conflicts-preview file.
`clock` issues fresh modification stamps for local writes. -/
structure World where
  localFile : Option FileContent
  remoteRef : Ref
  remoteData : Option SyncData
  nextRef : Ref
  clock : Nat
  checkpoint : Option (Ref × SyncData)
  backups : List SyncData
  previewFile : Option String
deriving DecidableEq, Repr

/-- Observable side effects of one engine run, in chronological order.
`remoteWrite` records the `If-Match` ref the write was issued with
(`none` = unconditional force-push). -/
inductive Eff where
  | remoteRead
  | mergeCall
  | previewWrite
  | backup
  | localWrite
  | remoteWrite (refArg : Option Ref)
  | previewDelete
  | checkpointWrite (ref : Ref)
deriving DecidableEq, Repr

/-- `IFileSyncPreviewResult` from `abstractSynchronizer.ts`. -/
structure FileSyncPreviewResult where
  fileContent : Option FileContent
  remoteUserData : RemoteUserData
  lastSyncUserData : Option RemoteUserData
  content : Option String
  hasLocalChanged : Bool
  hasRemoteChanged : Bool
  hasConflicts : Bool
deriving DecidableEq, Repr

/-- Result of the pluggable merge engine (`keybindingsMerge.merge`). -/
structure MergeResult where
  mergeContent : String
  hasChanges : Bool
  hasConflicts : Bool
deriving DecidableEq, Repr

/-- The per-resource parameters of the keybindings synchroniser: the
`sync.keybindingsPerPlatform` setting, the host platform, the JSON-with-
comments validity check (`hasErrors` of `AbstractJsonFileSynchroniser`) and
the merge engine. -/
structure SyncParams where
  perPlatform : Bool
  os : OSKind
  hasErrors : String → Bool
  mergeFn : String → String → Option String → MergeResult

/-- `this.version` of `KeybindingsSynchroniser`. -/
def engineVersion : Nat := 1

/-- JS truthiness of a nullable string: `null` and the empty string are
falsy. -/
def jsTruthy : Option String → Bool
  | none => false
  | some s => !(s == "")

/-- `KeybindingsSynchroniser.getKeybindingsContentFromSyncContent`: selects
the platform slot (or the shared `all` slot when per-platform sync is off)
from the parsed sync content; an absent slot yields `null`. -/
def getKeybindingsContent (perPlatform : Bool) (os : OSKind) (c : KbSyncContent) :
    Option String :=
  if !perPlatform then c.all
  else
    match os with
    | .macintosh => c.mac
    | .linux => c.linux
    | .windows => c.windows

/-- `KeybindingsSynchroniser.toSyncContent`: writes the keybindings content
into the platform slot of the previous sync content (starting from an empty
record when there is none), setting or deleting the shared `all` slot
according to the per-platform setting. -/
def toSyncContent (perPlatform : Bool) (os : OSKind) (kb : String)
    (prev : Option KbSyncContent) : KbSyncContent :=
  let parsed := prev.getD ⟨none, none, none, none⟩
  let parsed :=
    if !perPlatform then { parsed with all := some kb }
    else { parsed with all := none }
  match os with
  | .macintosh => { parsed with mac := some kb }
  | .linux => { parsed with linux := some kb }
  | .windows => { parsed with windows := some kb }

/-- `AbstractSynchroniser.getRemoteUserData` via `storeService.read`: a
conditional GET with `If-None-Match` equal to the store's current ref
answers 304, in which case the old (checkpoint) value is returned
unchanged; otherwise the store's current `(ref, data)` is returned. -/
def getRemoteUserData (w : World) (lastSync : Option RemoteUserData) :
    RemoteUserData :=
  match lastSync with
  | some ls =>
    if ls.ref == w.remoteRef then ls
    else { ref := w.remoteRef, syncData := w.remoteData }
  | none => { ref := w.remoteRef, syncData := w.remoteData }

/-- The remote store's write semantics behind `storeService.write`: a write
carrying an `If-Match` ref that is no longer current answers 412
(`RemotePreconditionFailed`); otherwise the data is stored under a fresh
ref, which is returned. -/
def storeWrite (w : World) (d : SyncData) (refArg : Option Ref) :
    Except SyncErrorCode (World × Ref) :=
  let stored : World :=
    { w with remoteRef := w.nextRef, remoteData := some d, nextRef := w.nextRef + 1 }
  match refArg with
  | some r =>
    if r == w.remoteRef then .ok (stored, w.nextRef)
    else .error .remotePreconditionFailed
  | none => .ok (stored, w.nextRef)

/-- `AbstractSynchroniser.updateRemoteUserData`: wraps the content in a
fresh envelope at the engine's version and writes it to the remote store. -/
def updateRemoteUserData (w : World) (content : KbSyncContent) (refArg : Option Ref) :
    Except SyncErrorCode (World × RemoteUserData) :=
  let sd : SyncData := { version := engineVersion, content := content }
  match storeWrite w sd refArg with
  | .ok (w', r) => .ok (w', { ref := r, syncData := some sd })
  | .error e => .error e

/-- `AbstractFileSynchroniser.updateLocalFileContent`.  With a previously
read `oldContent` the write is conditioned on the file's modification
stamp; a stamp mismatch is `FILE_MODIFIED_SINCE`, surfaced as
`LocalPreconditionFailed`.  (Modelled from the spec: the `FileService`
itself is not in the source tree; the spec requires a file-changed-since-
read race to raise `LocalPreconditionFailed`, and a write whose target has
meanwhile disappeared proceeds as a create.)  Without `oldContent` the file
is created with `overwrite: false`; an already existing file
(`FileExists`) is likewise surfaced as `LocalPreconditionFailed`. -/
def updateLocalFileContent (w : World) (newContent : String)
    (oldContent : Option FileContent) : Except SyncErrorCode World :=
  match oldContent with
  | some oc =>
    match w.localFile with
    | some fc =>
      if fc.mtime == oc.mtime then
        .ok { w with localFile := some ⟨newContent, w.clock⟩, clock := w.clock + 1 }
      else .error .localPreconditionFailed
    | none =>
      .ok { w with localFile := some ⟨newContent, w.clock⟩, clock := w.clock + 1 }
  | none =>
    match w.localFile with
    | some _ => .error .localPreconditionFailed
    | none =>
      .ok { w with localFile := some ⟨newContent, w.clock⟩, clock := w.clock + 1 }

/-- The TypeScript non-null assertion `remoteUserData.syncData!.version`;
in every reachable flow of `apply` the sync data is present. -/
def bangVersion : Option SyncData → Nat
  | some sd => sd.version
  | none => 0

/-- The content/flags core computed by `KeybindingsSynchroniser.generatePreview`
in its remote-content-exists branch, plus whether the merge engine was
invoked. -/
structure PreviewCore where
  content : Option String
  hasLocalChanged : Bool
  hasRemoteChanged : Bool
  hasConflicts : Bool
  mergeCalled : Bool
deriving DecidableEq, Repr

/-- An all-null `PreviewCore` (nothing to do, merge not invoked). -/
def PreviewCore.nothing : PreviewCore :=
  { content := none, hasLocalChanged := false, hasRemoteChanged := false
    hasConflicts := false, mergeCalled := false }

/-- `generatePreview`, remote-content-exists branch: merge when the last-sync
content is falsy or differs from the local or the remote content; if the
merge reports changes, the candidate content is the merge result and the
change flags are derived from the conflict flag and content differences.
`remoteContent` is truthy here, so `getD` only unwraps it. -/
def previewCore (P : SyncParams) (remoteContent lastSyncContent : Option String)
    (localContent : String) : PreviewCore :=
  if !(jsTruthy lastSyncContent) || lastSyncContent != some localContent
      || lastSyncContent != remoteContent then
    let r := P.mergeFn localContent (remoteContent.getD "") lastSyncContent
    if r.hasChanges then
      { content := some r.mergeContent
        hasConflicts := r.hasConflicts
        hasLocalChanged := r.hasConflicts || !(r.mergeContent == localContent)
        hasRemoteChanged := r.hasConflicts || !(r.mergeContent == remoteContent.getD "")
        mergeCalled := true }
    else { PreviewCore.nothing with mergeCalled := true }
  else PreviewCore.nothing

/-- `KeybindingsSynchroniser.generatePreview`: extract the remote and
last-sync keybindings content, read the local file, validate and merge when
remote content exists (JS-truthy), otherwise stage the local file content
as a first-time push; a truthy candidate content is persisted to the
conflicts-preview file.  (The cancellation token is never set in this
sequential model.) -/
def generatePreview (P : SyncParams) (w : World) (remote : RemoteUserData)
    (lastSync : Option RemoteUserData) :
    World × List Eff × Except SyncErrorCode FileSyncPreviewResult :=
  let remoteContent : Option String :=
    remote.syncData.bind (fun sd => getKeybindingsContent P.perPlatform P.os sd.content)
  let lastSyncContent : Option String :=
    (lastSync.bind (fun l => l.syncData)).bind
      (fun sd => getKeybindingsContent P.perPlatform P.os sd.content)
  let fileContent := w.localFile
  let coreRes : Except SyncErrorCode PreviewCore :=
    if jsTruthy remoteContent then
      let localContent := match fileContent with | some fc => fc.value | none => "[]"
      if P.hasErrors localContent then .error .localInvalidContent
      else .ok (previewCore P remoteContent lastSyncContent localContent)
    else
      match fileContent with
      | some fc =>
        .ok { content := some fc.value, hasLocalChanged := false
              hasRemoteChanged := true, hasConflicts := false, mergeCalled := false }
      | none => .ok PreviewCore.nothing
  match coreRes with
  | .error e => (w, [], .error e)
  | .ok core =>
    let mergeEffs : List Eff := if core.mergeCalled then [.mergeCall] else []
    let w' := if jsTruthy core.content then { w with previewFile := core.content } else w
    let effs := mergeEffs ++ (if jsTruthy core.content then [Eff.previewWrite] else [])
    (w', effs,
     .ok { fileContent := fileContent, remoteUserData := remote
           lastSyncUserData := lastSync, content := core.content
           hasLocalChanged := core.hasLocalChanged
           hasRemoteChanged := core.hasRemoteChanged
           hasConflicts := core.hasConflicts })

/-- The checkpoint step at the end of `KeybindingsSynchroniser.apply`: when
the (possibly just rewritten) remote ref differs from the last-sync ref and
there is candidate or local file content, persist `(ref, envelope)` where
the envelope carries the remote data's version and the sync content built
from the candidate content (falling back to the local file content). -/
def applyCheckpoint (P : SyncParams) (pv : FileSyncPreviewResult)
    (remoteNow : RemoteUserData) (w : World) : World × List Eff :=
  if (pv.lastSyncUserData.map (fun l => l.ref)) != some remoteNow.ref
      && (pv.content.isSome || pv.fileContent.isSome) then
    let base :=
      match pv.content with
      | some c => c
      | none =>
        match pv.fileContent with
        | some fc => fc.value
        | none => ""
    let sd : SyncData :=
      { version := bangVersion remoteNow.syncData
        content := toSyncContent P.perPlatform P.os base none }
    ({ w with checkpoint := some (remoteNow.ref, sd) }, [.checkpointWrite remoteNow.ref])
  else (w, [])

/-- `KeybindingsSynchroniser.apply`: no-op without an in-flight preview;
otherwise validate the candidate content, back up and conditionally write
the local file when `hasLocalChanged`, conditionally write the remote store
when `hasRemoteChanged` (`If-Match` omitted on `forcePush`), delete the
conflicts preview, run the checkpoint step, and clear the preview.  Errors
propagate with the preview left in place (the caller clears it). -/
def apply (P : SyncParams) (forcePush : Bool) (w : World)
    (preview : Option FileSyncPreviewResult) :
    World × Option FileSyncPreviewResult × List Eff × Except SyncErrorCode Unit :=
  match preview with
  | none => (w, none, [], .ok ())
  | some pv =>
    match pv.content with
    | some c =>
      if P.hasErrors c then (w, some pv, [], .error .localInvalidContent)
      else
        let backupSd : SyncData :=
          { version := engineVersion, content := toSyncContent P.perPlatform P.os c none }
        let w1 :=
          if pv.hasLocalChanged then { w with backups := w.backups ++ [backupSd] } else w
        let effs1 : List Eff := if pv.hasLocalChanged then [.backup] else []
        match (if pv.hasLocalChanged then updateLocalFileContent w1 c pv.fileContent
               else .ok w1) with
        | .error e => (w1, some pv, effs1, .error e)
        | .ok w2 =>
          let effs2 := effs1 ++ (if pv.hasLocalChanged then [Eff.localWrite] else [])
          let writeRef : Option Ref := if forcePush then none else some pv.remoteUserData.ref
          match (if pv.hasRemoteChanged then
                   updateRemoteUserData w2
                     (toSyncContent P.perPlatform P.os c
                       (pv.remoteUserData.syncData.map (fun sd => sd.content)))
                     writeRef
                 else .ok (w2, pv.remoteUserData)) with
          | .error e => (w2, some pv, effs2, .error e)
          | .ok (w3, remoteNow) =>
            ((applyCheckpoint P pv remoteNow { w3 with previewFile := none }).1, none,
             effs2 ++ (if pv.hasRemoteChanged then [Eff.remoteWrite writeRef] else [])
               ++ [Eff.previewDelete]
               ++ (applyCheckpoint P pv remoteNow { w3 with previewFile := none }).2,
             .ok ())
    | none =>
      ((applyCheckpoint P pv pv.remoteUserData w).1, none,
       (applyCheckpoint P pv pv.remoteUserData w).2, .ok ())

/-- One run of the synchroniser, as produced by `performSync`/`doSync`:
the world and in-flight preview after the run, the effect log, and the
returned status or propagated error. -/
abbrev StepOut :=
  World × Option FileSyncPreviewResult × List Eff × Except SyncErrorCode SyncStatus

/-- `KeybindingsSynchroniser.performSync`: obtain the preview (reusing an
in-flight one), report `HasConflicts` without applying when the preview has
conflicts, otherwise apply and report `Idle`.  On an error the in-flight
preview is cleared; `LocalPreconditionFailed` retries the whole
`performSync`.  The fuel bounds the retry recursion; `none` models a run
that exhausts it. -/
def performSyncFuel (P : SyncParams) :
    Nat → World → Option FileSyncPreviewResult → RemoteUserData →
    Option RemoteUserData → Option StepOut
  | 0, _, _, _, _ => none
  | Nat.succ f, w, pv0, remote, lastSync =>
    match (match pv0 with
           | some p => (w, ([] : List Eff), Except.ok p)
           | none => generatePreview P w remote lastSync) with
    | (w1, effs1, .error e) =>
      if e == .localPreconditionFailed then
        match performSyncFuel P f w1 none remote lastSync with
        | none => none
        | some (w2, pv2, effs2, r2) => some (w2, pv2, effs1 ++ effs2, r2)
      else some (w1, none, effs1, .error e)
    | (w1, effs1, .ok p) =>
      if p.hasConflicts then some (w1, some p, effs1, .ok .hasConflicts)
      else
        match apply P false w1 (some p) with
        | (w2, pv2, effs2, .ok ()) => some (w2, pv2, effs1 ++ effs2, .ok .idle)
        | (w2, _, effs2, .error e) =>
          if e == .localPreconditionFailed then
            match performSyncFuel P f w2 none remote lastSync with
            | none => none
            | some (w3, pv3, effs3, r3) => some (w3, pv3, effs1 ++ effs2 ++ effs3, r3)
          else some (w2, none, effs1 ++ effs2, .error e)

/-- `remoteUserData.syncData && remoteUserData.syncData.version > this.version`:
the guard of the `Incompatible` failure in `AbstractSynchroniser.doSync`. -/
def isIncompatible (version : Nat) (remote : RemoteUserData) : Bool :=
  match remote.syncData with
  | some sd => version < sd.version
  | none => false

/-- `AbstractSynchroniser.doSync`: fail with `Incompatible` when the remote
envelope's version exceeds the engine's; otherwise run `performSync`
(passed as a parameter, as in the abstract class).  On
`RemotePreconditionFailed` re-fetch the remote data bypassing the cached
checkpoint (`getRemoteUserData(null)`) and recurse with the fresh snapshot;
every other outcome is returned.  The fuel bounds the retry recursion;
`none` models a run that exhausts it. -/
def doSync (version : Nat)
    (perform : Nat → World → Option FileSyncPreviewResult → RemoteUserData →
      Option RemoteUserData → Option StepOut) :
    Nat → World → Option FileSyncPreviewResult → RemoteUserData →
    Option RemoteUserData → Option StepOut
  | 0, _, _, _, _ => none
  | Nat.succ f, w, pv, remote, lastSync =>
    if isIncompatible version remote then some (w, pv, [], .error .incompatible)
    else
      match perform (Nat.succ f) w pv remote lastSync with
      | none => none
      | some (w1, pv1, effs1, r1) =>
        match r1 with
        | .error .remotePreconditionFailed =>
          match doSync version perform f w1 pv1 (getRemoteUserData w1 none) lastSync with
          | none => none
          | some (w2, pv2, effs2, r2) =>
            some (w2, pv2, effs1 ++ [Eff.remoteRead] ++ effs2, r2)
        | _ => some (w1, pv1, effs1, r1)

/-- The synchroniser's own mutable state: the status, the resource
enablement, and the in-flight preview (`syncPreviewResultPromise`). -/
structure EngineState where
  status : SyncStatus
  enabled : Bool
  preview : Option FileSyncPreviewResult
deriving DecidableEq, Repr

/-- `AbstractSynchroniser.getLastSyncUserData`: the parsed checkpoint file,
as a `RemoteUserData`. -/
def cpToRemote : Option (Ref × SyncData) → Option RemoteUserData
  | some (r, sd) => some { ref := r, syncData := some sd }
  | none => none

/-- `AbstractSynchroniser.sync(ref?)`: a no-op when the resource is disabled
or the status is `HasConflicts` or `Syncing`; otherwise enter `Syncing`,
load the checkpoint, fetch the remote data (skipping the fetch when the
optional `ref` matches the checkpoint's), run `doSync`, and in the `finally`
set the resulting status — `Idle` when `doSync` threw, with the error
propagated. -/
def syncOnce (P : SyncParams) (fuel : Nat) (w : World) (es : EngineState)
    (refArg : Option Ref) :
    Option (World × EngineState × List Eff × Except SyncErrorCode Unit) :=
  if !es.enabled then some (w, es, [], .ok ())
  else if es.status == .hasConflicts then some (w, es, [], .ok ())
  else if es.status == .syncing then some (w, es, [], .ok ())
  else
    let lastSync := cpToRemote w.checkpoint
    let fetched : RemoteUserData × List Eff :=
      match refArg, lastSync with
      | some r, some ls =>
        if ls.ref == r then (ls, [])
        else (getRemoteUserData w lastSync, [.remoteRead])
      | _, _ => (getRemoteUserData w lastSync, [.remoteRead])
    match doSync engineVersion (performSyncFuel P) fuel w es.preview fetched.1 lastSync with
    | none => none
    | some (w1, pv1, effs1, .ok s) =>
      some (w1, { es with status := s, preview := pv1 }, fetched.2 ++ effs1, .ok ())
    | some (w1, pv1, effs1, .error e) =>
      some (w1, { es with status := .idle, preview := pv1 }, fetched.2 ++ effs1, .error e)

/-- `KeybindingsSynchroniser.accept(content)`: only acts in `HasConflicts`;
replaces the in-flight preview's candidate content with the supplied
resolution, runs `apply` with `forcePush = true`, and on success returns
the status to `Idle` (an `apply` error propagates with the status
unchanged).  The preview being present is the TS non-null assertion; the
`none` case is unreachable while in `HasConflicts`. -/
def accept (P : SyncParams) (c : String) (w : World) (es : EngineState) :
    World × EngineState × List Eff × Except SyncErrorCode Unit :=
  if es.status == .hasConflicts then
    match es.preview with
    | some p =>
      match apply P true w (some { p with content := some c }) with
      | (w1, pv1, effs1, .ok ()) =>
        (w1, { es with status := .idle, preview := pv1 }, effs1, .ok ())
      | (w1, pv1, effs1, .error e) =>
        (w1, { es with preview := pv1 }, effs1, .error e)
    | none => (w, es, [], .ok ())
  else (w, es, [], .ok ())

/-!
## Derived notions used in the statements
-/

/-- The local content as `generatePreview` computes it: the file's text, or
the default empty keybindings array when the file is absent. -/
def localContentOf (w : World) : String :=
  match w.localFile with
  | some fc => fc.value
  | none => "[]"

/-- Well-formed world: every ref already handed out (the store's current
ref and the checkpoint's) precedes the store's fresh-ref counter.  This
models that the store never reissues an ETag. -/
def WFWorld (w : World) : Prop :=
  w.remoteRef < w.nextRef
  ∧ ∀ r sd, w.checkpoint = some (r, sd) → r < w.nextRef

/-- The remote ref a successful `apply` ends with: the fresh ref issued by
the remote write when one is performed (candidate content present and
`hasRemoteChanged`), else the preview's remote snapshot ref. -/
def applyFinalRef (w : World) (pv : FileSyncPreviewResult) : Ref :=
  if pv.content.isSome && pv.hasRemoteChanged then w.nextRef else pv.remoteUserData.ref

/-- The envelope version the checkpoint step writes: the engine's own
version after a remote write, else the remote snapshot's. -/
def applyFinalVersion (pv : FileSyncPreviewResult) : Nat :=
  if pv.content.isSome && pv.hasRemoteChanged then engineVersion
  else bangVersion pv.remoteUserData.syncData

/-- The content the checkpoint step records: the candidate content, falling
back to the local file content. -/
def applyCpBase (pv : FileSyncPreviewResult) : String :=
  match pv.content with
  | some c => c
  | none =>
    match pv.fileContent with
    | some fc => fc.value
    | none => ""

/-- The remote keybindings content as `generatePreview` extracts it from a
remote snapshot. -/
def genRcq (P : SyncParams) (remote : RemoteUserData) : Option String :=
  remote.syncData.bind (fun sd => getKeybindingsContent P.perPlatform P.os sd.content)

/-- The last-sync keybindings content as `generatePreview` extracts it from
the checkpoint snapshot. -/
def genLq (P : SyncParams) (lastSync : Option RemoteUserData) : Option String :=
  (lastSync.bind (fun l => l.syncData)).bind
    (fun sd => getKeybindingsContent P.perPlatform P.os sd.content)

/-- The remote keybindings content a fresh `sync()` run on `w` observes. -/
def stRcq (P : SyncParams) (w : World) : Option String :=
  genRcq P (getRemoteUserData w (cpToRemote w.checkpoint))

/-- The last-sync keybindings content a fresh `sync()` run on `w` observes. -/
def stLq (P : SyncParams) (w : World) : Option String :=
  genLq P (cpToRemote w.checkpoint)

/-- A state from which another `sync()` is a no-op (up to reads and merge
recomputation): whenever the observed remote content is truthy the merge
core stages nothing, whenever it is falsy there is no local file to push,
and a checkpoint that disagrees with the store's current ref only occurs
without a local file. -/
def StableState (P : SyncParams) (w : World) : Prop :=
  (jsTruthy (stRcq P w) = true → P.hasErrors (localContentOf w) = false →
    (previewCore P (stRcq P w) (stLq P w) (localContentOf w)).content = none)
  ∧ (jsTruthy (stRcq P w) = false → w.localFile = none)
  ∧ ((w.checkpoint.map (fun x => x.1)) ≠ some w.remoteRef → w.localFile = none)

/-!
## Fixtures for concrete runs
-/

/-- A deterministic test merge engine: takes the remote side and reports
changes exactly when the sides differ. -/
def testMerge : String → String → Option String → MergeResult := fun l r _ =>
  { mergeContent := r, hasChanges := !(l == r), hasConflicts := false }

/-- Test parameters: shared-slot sync on Linux, every content valid. -/
def Ptest : SyncParams :=
  { perPlatform := false, os := .linux, hasErrors := fun _ => false, mergeFn := testMerge }

/-- The sync content envelope `toSyncContent` builds under `Ptest`. -/
def envAll (s : String) : KbSyncContent :=
  { mac := none, linux := some s, windows := none, all := some s }

/-- Preview staged by a run whose merge produced `NEW` over local `OLD`
with only the local side to update. -/
def pvC3 : FileSyncPreviewResult :=
  { fileContent := some ⟨"OLD", 0⟩
    remoteUserData := { ref := 3, syncData := some { version := 1, content := envAll "NEW" } }
    lastSyncUserData := some { ref := 3, syncData := some { version := 1, content := envAll "OLD" } }
    content := some "NEW", hasLocalChanged := true, hasRemoteChanged := false
    hasConflicts := false }

/-- World matching `pvC3`: the local file still holds the pre-change
content `OLD` with the stamp the preview was read at. -/
def wC3 : World :=
  { localFile := some ⟨"OLD", 0⟩, remoteRef := 3
    remoteData := some { version := 1, content := envAll "NEW" }
    nextRef := 4, clock := 1
    checkpoint := some (3, { version := 1, content := envAll "OLD" }), backups := []
    previewFile := none }

/-- Envelope both sides agree on in the `C5` scenario. -/
def sdBrK : SyncData := { version := 1, content := envAll "[]" }

/-- World for the `C5` run: the remote was rewritten with identical content
by another device, so its ref moved from the checkpointed `5` to `7`. -/
def wC5 : World :=
  { localFile := none, remoteRef := 7, remoteData := some sdBrK, nextRef := 8, clock := 0
    checkpoint := some (5, sdBrK), backups := [], previewFile := none }

/-- The preview `generatePreview` produces on `wC5` (proved below): nothing
to do, but the refs still differ. -/
def pvC5 : FileSyncPreviewResult :=
  { fileContent := none
    remoteUserData := { ref := 7, syncData := some sdBrK }
    lastSyncUserData := some { ref := 5, syncData := some sdBrK }
    content := none, hasLocalChanged := false, hasRemoteChanged := false
    hasConflicts := false }

/-- Initial engine state: idle, enabled, no in-flight preview. -/
def esIdle : EngineState := { status := .idle, enabled := true, preview := none }

/-- World with an empty local keybindings file and an empty remote store. -/
def wC9 : World :=
  { localFile := some ⟨"", 0⟩, remoteRef := 0, remoteData := none, nextRef := 1
    clock := 1, checkpoint := none, backups := [], previewFile := none }

/-- `wC9` after the first sync: the empty content was pushed and
checkpointed under the fresh ref `1`. -/
def wC9a : World :=
  { localFile := some ⟨"", 0⟩, remoteRef := 1
    remoteData := some { version := 1, content := envAll "" }, nextRef := 2
    clock := 1, checkpoint := some (1, { version := 1, content := envAll "" })
    backups := [], previewFile := none }

/-- `wC9a` after the second sync: the push repeated, moving the ref again. -/
def wC9b : World :=
  { localFile := some ⟨"", 0⟩, remoteRef := 2
    remoteData := some { version := 1, content := envAll "" }, nextRef := 3
    clock := 1, checkpoint := some (2, { version := 1, content := envAll "" })
    backups := [], previewFile := none }

/-- World with a non-empty local file and an empty remote store, for the
amended idempotence witness. -/
def wW9 : World :=
  { localFile := some ⟨"[]", 0⟩, remoteRef := 0, remoteData := none, nextRef := 1
    clock := 1, checkpoint := none, backups := [], previewFile := none }

/-- `wW9` after the first sync. -/
def wW9a : World :=
  { localFile := some ⟨"[]", 0⟩, remoteRef := 1
    remoteData := some { version := 1, content := envAll "[]" }, nextRef := 2
    clock := 1, checkpoint := some (1, { version := 1, content := envAll "[]" })
    backups := [], previewFile := none }

/-- Conflicted preview for the `accept` witness. -/
def pvC8 : FileSyncPreviewResult :=
  { fileContent := some ⟨"[1]", 0⟩
    remoteUserData := { ref := 4, syncData := some { version := 1, content := envAll "[2]" } }
    lastSyncUserData := some { ref := 2, syncData := some { version := 1, content := envAll "[]" } }
    content := some "[1,2]", hasLocalChanged := true, hasRemoteChanged := true
    hasConflicts := true }

/-- World matching `pvC8`. -/
def wC8 : World :=
  { localFile := some ⟨"[1]", 0⟩, remoteRef := 4
    remoteData := some { version := 1, content := envAll "[2]" }
    nextRef := 5, clock := 1
    checkpoint := some (2, { version := 1, content := envAll "[]" }), backups := []
    previewFile := some "[1,2]" }

/-!
## Theorems
-/

/-- C2 (counterexample): the claim as stated says every non-success status
other than the enumerated ones raises `Unknown`, but a 304 answer to a
conditional read is a non-success status (and not a network failure nor
401/403/412/413) that raises nothing: the cached previous value is
returned. -/
theorem C2_counterexample :
    storeServiceRead (some "tok") (some { ref := "r1", content := some "c" })
        (some { statusCode := 304, etag := none, body := none })
      = (.ok (some { ref := "r1", content := some "c" }), false)
    ∧ (storeServiceRead (some "tok") (some { ref := "r1", content := some "c" })
        (some { statusCode := 304, etag := none, body := none })).1 ≠ .error .unknown
    ∧ isSuccessCode 304 = false := by
  refine ⟨rfl, fun h => ?_, rfl⟩
  exact Except.noConfusion h

/-- C2 (amended): for every request of the store client, with an auth token
present: a network-level failure raises `ConnectionRefused`; 401 raises
`Unauthorized` and triggers the token-failure notification; 403 raises
`Forbidden`; 412 raises `RemotePreconditionFailed`; 413 raises `TooLarge`;
a successful (2xx) response with a missing or empty `ETag` raises `NoRef`;
a 304 on a conditional read returns the cached previous value without
raising (while a 304 on a write raises `Unknown`); and any other
non-success status raises `Unknown`. -/
theorem C2_statusMapping (t : String) (old : Option HttpUserData) (r : HttpResponse) :
    (storeServiceRead (some t) old none = (.error .connectionRefused, false)
      ∧ storeServiceWrite (some t) none = (.error .connectionRefused, false))
    ∧ (r.statusCode = 401 →
        storeServiceRead (some t) old (some r) = (.error .unauthorized, true)
        ∧ storeServiceWrite (some t) (some r) = (.error .unauthorized, true))
    ∧ (r.statusCode = 403 →
        storeServiceRead (some t) old (some r) = (.error .forbidden, false)
        ∧ storeServiceWrite (some t) (some r) = (.error .forbidden, false))
    ∧ (r.statusCode = 412 →
        storeServiceRead (some t) old (some r) = (.error .remotePreconditionFailed, false)
        ∧ storeServiceWrite (some t) (some r) = (.error .remotePreconditionFailed, false))
    ∧ (r.statusCode = 413 →
        storeServiceRead (some t) old (some r) = (.error .tooLarge, false)
        ∧ storeServiceWrite (some t) (some r) = (.error .tooLarge, false))
    ∧ (isSuccessCode r.statusCode = true → (r.etag = none ∨ r.etag = some "") →
        storeServiceRead (some t) old (some r) = (.error .noRef, false)
        ∧ storeServiceWrite (some t) (some r) = (.error .noRef, false))
    ∧ (r.statusCode = 304 →
        storeServiceRead (some t) old (some r) = (.ok old, false)
        ∧ storeServiceWrite (some t) (some r) = (.error .unknown, false))
    ∧ (isSuccessCode r.statusCode = false →
        r.statusCode ≠ 304 → r.statusCode ≠ 401 → r.statusCode ≠ 403 →
        r.statusCode ≠ 412 → r.statusCode ≠ 413 →
        storeServiceRead (some t) old (some r) = (.error .unknown, false)
        ∧ storeServiceWrite (some t) (some r) = (.error .unknown, false)) := by
  refine ⟨⟨rfl, rfl⟩, ?_, ?_, ?_, ?_, ?_, ?_, ?_⟩
  · intro h
    constructor <;> simp [storeServiceRead, storeServiceWrite, request, h]
  · intro h
    constructor <;> simp [storeServiceRead, storeServiceWrite, request, h]
  · intro h
    constructor <;> simp [storeServiceRead, storeServiceWrite, request, h]
  · intro h
    constructor <;> simp [storeServiceRead, storeServiceWrite, request, h]
  · intro hs he
    have h200 : 200 ≤ r.statusCode ∧ r.statusCode < 300 := by
      simpa [isSuccessCode] using hs
    have h1 : r.statusCode ≠ 401 := by omega
    have h2 : r.statusCode ≠ 403 := by omega
    have h3 : r.statusCode ≠ 412 := by omega
    have h4 : r.statusCode ≠ 413 := by omega
    have h5 : r.statusCode ≠ 304 := by omega
    rcases he with he | he <;>
      constructor <;>
        simp [storeServiceRead, storeServiceWrite, request, h1, h2, h3, h4, h5, hs, he]
  · intro h
    constructor <;> simp [storeServiceRead, storeServiceWrite, request, h, isSuccessCode]
  · intro hs h304 h1 h2 h3 h4
    constructor <;>
      simp [storeServiceRead, storeServiceWrite, request, h1, h2, h3, h4, h304, hs]

/-- C2 (witness): the amended mapping exercised at concrete responses:
a 401 with notification, a 412, a 2xx without `ETag`, a 304 read hit, and
a 500 mapped to `Unknown`. -/
theorem C2_statusMapping_witness :
    storeServiceRead (some "t") none (some { statusCode := 401, etag := none, body := none })
        = (.error .unauthorized, true)
    ∧ storeServiceWrite (some "t") (some { statusCode := 412, etag := none, body := none })
        = (.error .remotePreconditionFailed, false)
    ∧ storeServiceRead (some "t") none (some { statusCode := 200, etag := none, body := some "x" })
        = (.error .noRef, false)
    ∧ storeServiceRead (some "t") (some { ref := "r", content := none })
        (some { statusCode := 304, etag := none, body := none })
        = (.ok (some { ref := "r", content := none }), false)
    ∧ storeServiceWrite (some "t") (some { statusCode := 500, etag := none, body := none })
        = (.error .unknown, false) := by
  refine ⟨?_, ?_, ?_, ?_, ?_⟩
  · exact ((C2_statusMapping "t" none _).2.1 rfl).1
  · exact ((C2_statusMapping "t" none _).2.2.2.1 rfl).2
  · exact ((C2_statusMapping "t" none _).2.2.2.2.2.1 (by decide) (Or.inl rfl)).1
  · exact ((C2_statusMapping "t" (some { ref := "r", content := none }) _).2.2.2.2.2.2.1 rfl).1
  · exact ((C2_statusMapping "t" none _).2.2.2.2.2.2.2 (by decide) (by decide) (by decide)
      (by decide) (by decide) (by decide)).2

/-- C6: `sync()` is a no-op — same world, same engine state, no effects,
no error — when the resource is disabled or the status is `HasConflicts`
or `Syncing`. -/
theorem C6_sync_guard (P : SyncParams) (fuel : Nat) (w : World) (es : EngineState)
    (refArg : Option Ref)
    (h : es.enabled = false ∨ es.status = .hasConflicts ∨ es.status = .syncing) :
    syncOnce P fuel w es refArg = some (w, es, [], .ok ()) := by
  rcases h with h | h | h
  · simp [syncOnce, h]
  · cases hen : es.enabled <;> simp [syncOnce, h, hen]
  · cases hen : es.enabled <;> simp [syncOnce, h, hen]

/-- C6 (witness): a disabled resource, a conflicted engine and a running
engine each make `sync()` return everything unchanged. -/
theorem C6_sync_guard_witness :
    syncOnce Ptest 3 wC9 { esIdle with enabled := false } none
      = some (wC9, { esIdle with enabled := false }, [], .ok ())
    ∧ syncOnce Ptest 3 wC9 { esIdle with status := .hasConflicts } none
      = some (wC9, { esIdle with status := .hasConflicts }, [], .ok ())
    ∧ syncOnce Ptest 3 wC9 { esIdle with status := .syncing } none
      = some (wC9, { esIdle with status := .syncing }, [], .ok ()) :=
  ⟨C6_sync_guard Ptest 3 wC9 _ none (Or.inl rfl),
   C6_sync_guard Ptest 3 wC9 _ none (Or.inr (Or.inl rfl)),
   C6_sync_guard Ptest 3 wC9 _ none (Or.inr (Or.inr rfl))⟩

/-- C7: when the remote envelope's version exceeds the engine's, `doSync`
fails with `Incompatible` for every possible `performSync`, leaving the
world and preview untouched and producing no effects — so no merge, local
write, remote write, or checkpoint update occurs. -/
theorem C7_incompatible (version f : Nat) (w : World)
    (pv : Option FileSyncPreviewResult) (remote : RemoteUserData)
    (lastSync : Option RemoteUserData) (sd : SyncData)
    (h1 : remote.syncData = some sd) (h2 : version < sd.version) :
    ∀ perform, doSync version perform (f + 1) w pv remote lastSync
      = some (w, pv, [], .error .incompatible) := by
  intro perform
  have hinc : isIncompatible version remote = true := by
    simp [isIncompatible, h1]
    exact h2
  simp [doSync, hinc]

/-- C7 (witness): a remote envelope at version 2 against engine version 1
fails with `Incompatible` even for a `performSync` that would write. -/
theorem C7_incompatible_witness :
    doSync 1 (performSyncFuel Ptest) 1 wC9 none
        { ref := 0, syncData := some { version := 2, content := envAll "x" } } none
      = some (wC9, none, [], .error .incompatible) :=
  C7_incompatible 1 0 wC9 none _ none { version := 2, content := envAll "x" } rfl
    (by decide) (performSyncFuel Ptest)

/-- C1: on `RemotePreconditionFailed` from `performSync`, `doSync`
re-fetches the remote data passing no last-sync data to the fetch (so the
cached checkpoint is bypassed and the store's current state is read) and
recurses on the fresh snapshot; and no terminating `doSync` run ever
returns a `RemotePreconditionFailed` error to its caller. -/
theorem C1_doSync_retry_no_rpf :
    (∀ version perform f w pv remote lastSync w1 pv1 effs1,
      isIncompatible version remote = false →
      perform (f + 1) w pv remote lastSync
        = some (w1, pv1, effs1, .error .remotePreconditionFailed) →
      doSync version perform (f + 1) w pv remote lastSync
        = match doSync version perform f w1 pv1 (getRemoteUserData w1 none) lastSync with
          | none => none
          | some (w2, pv2, effs2, r2) =>
            some (w2, pv2, effs1 ++ [Eff.remoteRead] ++ effs2, r2))
    ∧ (∀ version perform fuel w pv remote lastSync w1 pv1 effs1 r1,
      doSync version perform fuel w pv remote lastSync = some (w1, pv1, effs1, r1) →
      r1 ≠ .error .remotePreconditionFailed) := by
  constructor
  · intro version perform f w pv remote lastSync w1 pv1 effs1 hinc hperf
    simp [doSync, hinc, hperf]
  · intro version perform fuel
    induction fuel with
    | zero =>
      intro w pv remote lastSync w1 pv1 effs1 r1 h
      simp [doSync] at h
    | succ f ih =>
      intro w pv remote lastSync w1 pv1 effs1 r1 h
      rw [doSync] at h
      split at h
      · simp only [Option.some.injEq, Prod.mk.injEq] at h
        rcases h with ⟨-, -, -, h4⟩
        simp [← h4]
      · split at h
        · exact absurd h (by simp)
        · rename_i w1' pv1' effs1' r1' heq
          split at h
          · split at h
            · exact absurd h (by simp)
            · rename_i w2 pv2 effs2 r2 hrec
              simp only [Option.some.injEq, Prod.mk.injEq] at h
              rcases h with ⟨-, -, -, h4⟩
              subst h4
              exact ih _ _ _ _ _ _ _ _ hrec
          · rename_i hne
            simp only [Option.some.injEq, Prod.mk.injEq] at h
            rcases h with ⟨-, -, -, h4⟩
            subst h4
            intro hc
            subst hc
            exact hne rfl

/-- The merge guard of `generatePreview`, as a proposition: the JS test
`!lastSyncContent || lastSyncContent !== localContent || lastSyncContent
!== remoteContent` agrees with "absent, or differs from the local content,
or differs from the remote content" whenever the remote content is truthy
(a falsy-but-present empty last-sync content always differs from it). -/
theorem mergeGuard_iff (lq : Option String) (lc rc : String) (hne : rc ≠ "") :
    (!(jsTruthy lq) || lq != some lc || lq != some rc) = true
      ↔ (lq = none ∨ lq ≠ some lc ∨ lq ≠ some rc) := by
  cases lq with
  | none => simp [jsTruthy]
  | some s =>
    by_cases hs : s = ""
    · subst hs
      simp [jsTruthy]
      exact Or.inr fun h => hne h.symm
    · simp [jsTruthy, hs, bne_iff_ne]

/-- `previewCore` when the merge guard holds and the merge reports
changes. -/
theorem previewCore_guardTrue_changes (P : SyncParams) (lq : Option String) (lc rc : String)
    (hg : (!(jsTruthy lq) || lq != some lc || lq != some rc) = true)
    (hch : (P.mergeFn lc rc lq).hasChanges = true) :
    previewCore P (some rc) lq lc
      = { content := some (P.mergeFn lc rc lq).mergeContent
          hasConflicts := (P.mergeFn lc rc lq).hasConflicts
          hasLocalChanged := (P.mergeFn lc rc lq).hasConflicts
            || !((P.mergeFn lc rc lq).mergeContent == lc)
          hasRemoteChanged := (P.mergeFn lc rc lq).hasConflicts
            || !((P.mergeFn lc rc lq).mergeContent == rc)
          mergeCalled := true } := by
  simp only [previewCore, Option.getD_some, hg, if_true, hch]

/-- `previewCore` when the merge guard holds and the merge reports no
changes. -/
theorem previewCore_guardTrue_nochanges (P : SyncParams) (lq : Option String) (lc rc : String)
    (hg : (!(jsTruthy lq) || lq != some lc || lq != some rc) = true)
    (hch : (P.mergeFn lc rc lq).hasChanges = false) :
    previewCore P (some rc) lq lc = { PreviewCore.nothing with mergeCalled := true } := by
  simp only [previewCore, Option.getD_some, hg, if_true, hch, Bool.false_eq_true, if_false]

/-- `previewCore` when the merge guard fails. -/
theorem previewCore_guardFalse (P : SyncParams) (lq : Option String) (lc rc : String)
    (hg : (!(jsTruthy lq) || lq != some lc || lq != some rc) = false) :
    previewCore P (some rc) lq lc = PreviewCore.nothing := by
  simp only [previewCore, hg, Bool.false_eq_true, if_false]

/-- `generatePreview` in the remote-content-truthy, valid-local branch,
expressed through `previewCore`. -/
theorem generatePreview_truthy (P : SyncParams) (w : World) (remote : RemoteUserData)
    (lastSync : Option RemoteUserData) (sd : SyncData) (rc : String)
    (hsd : remote.syncData = some sd)
    (hrc : getKeybindingsContent P.perPlatform P.os sd.content = some rc)
    (hne : rc ≠ "")
    (hval : P.hasErrors (localContentOf w) = false) :
    generatePreview P w remote lastSync
      = ((if jsTruthy (previewCore P (some rc)
              ((lastSync.bind (fun l => l.syncData)).bind
                (fun s => getKeybindingsContent P.perPlatform P.os s.content))
              (localContentOf w)).content then
            { w with previewFile := (previewCore P (some rc)
                ((lastSync.bind (fun l => l.syncData)).bind
                  (fun s => getKeybindingsContent P.perPlatform P.os s.content))
                (localContentOf w)).content }
          else w),
         (if (previewCore P (some rc)
              ((lastSync.bind (fun l => l.syncData)).bind
                (fun s => getKeybindingsContent P.perPlatform P.os s.content))
              (localContentOf w)).mergeCalled then [Eff.mergeCall] else [])
           ++ (if jsTruthy (previewCore P (some rc)
                ((lastSync.bind (fun l => l.syncData)).bind
                  (fun s => getKeybindingsContent P.perPlatform P.os s.content))
                (localContentOf w)).content then [Eff.previewWrite] else []),
         .ok { fileContent := w.localFile, remoteUserData := remote
               lastSyncUserData := lastSync
               content := (previewCore P (some rc)
                  ((lastSync.bind (fun l => l.syncData)).bind
                    (fun s => getKeybindingsContent P.perPlatform P.os s.content))
                  (localContentOf w)).content
               hasLocalChanged := (previewCore P (some rc)
                  ((lastSync.bind (fun l => l.syncData)).bind
                    (fun s => getKeybindingsContent P.perPlatform P.os s.content))
                  (localContentOf w)).hasLocalChanged
               hasRemoteChanged := (previewCore P (some rc)
                  ((lastSync.bind (fun l => l.syncData)).bind
                    (fun s => getKeybindingsContent P.perPlatform P.os s.content))
                  (localContentOf w)).hasRemoteChanged
               hasConflicts := (previewCore P (some rc)
                  ((lastSync.bind (fun l => l.syncData)).bind
                    (fun s => getKeybindingsContent P.perPlatform P.os s.content))
                  (localContentOf w)).hasConflicts }) := by
  have htr : jsTruthy (some rc) = true := by simp [jsTruthy, hne]
  have hlc : (match w.localFile with | some fc => fc.value | none => "[]")
      = localContentOf w := by
    cases h : w.localFile <;> simp [localContentOf, h]
  simp only [generatePreview, hsd, Option.some_bind, hrc, htr, if_true, hlc, hval,
    Bool.false_eq_true, if_false]

/-- C1 (witness): the retry equation at a `performSync` that always
rejects with `RemotePreconditionFailed` (the run diverges rather than
propagating it), and the non-propagation at a `performSync` that
succeeds. -/
theorem C1_doSync_retry_no_rpf_witness :
    doSync 1 (fun _ w pv _ _ => some (w, pv, [], .error .remotePreconditionFailed))
        1 wC9 none { ref := 0, syncData := none } none
      = (match doSync 1 (fun _ w pv _ _ => some (w, pv, [], .error .remotePreconditionFailed))
            0 wC9 none (getRemoteUserData wC9 none) none with
         | none => none
         | some (w2, pv2, effs2, r2) =>
           some (w2, pv2, ([] : List Eff) ++ [Eff.remoteRead] ++ effs2, r2))
    ∧ ((.ok .idle : Except SyncErrorCode SyncStatus) ≠ .error .remotePreconditionFailed) := by
  constructor
  · exact C1_doSync_retry_no_rpf.1 1 _ 0 wC9 none { ref := 0, syncData := none } none wC9 none
      [] rfl rfl
  · exact C1_doSync_retry_no_rpf.2 1 (fun _ w pv _ _ => some (w, pv, [], .ok .idle)) 1 wC9
      none { ref := 0, syncData := none } none wC9 none [] (.ok .idle) (by simp [doSync, isIncompatible])

/-- C4: with truthy remote content and valid local content, `generatePreview`
invokes the merge engine iff the last-sync content is absent or differs
from the local or the remote content; a merge reporting no changes leaves
the candidate content `null` and all three flags `false`; a merge reporting
changes makes the candidate the merge result, takes `hasConflicts` from the
merge, and sets `hasLocalChanged`/`hasRemoteChanged` iff there are
conflicts or the merge result differs from the respective side. -/
theorem C4_generatePreview_merge (P : SyncParams) (w : World) (remote : RemoteUserData)
    (lastSync : Option RemoteUserData) (sd : SyncData) (rc : String)
    (hsd : remote.syncData = some sd)
    (hrc : getKeybindingsContent P.perPlatform P.os sd.content = some rc)
    (hne : rc ≠ "")
    (hval : P.hasErrors (localContentOf w) = false) :
    ∃ w' effs p, generatePreview P w remote lastSync = (w', effs, .ok p)
      ∧ ((Eff.mergeCall ∈ effs) ↔
          ((lastSync.bind (fun l => l.syncData)).bind
              (fun s => getKeybindingsContent P.perPlatform P.os s.content) = none
           ∨ (lastSync.bind (fun l => l.syncData)).bind
              (fun s => getKeybindingsContent P.perPlatform P.os s.content)
                ≠ some (localContentOf w)
           ∨ (lastSync.bind (fun l => l.syncData)).bind
              (fun s => getKeybindingsContent P.perPlatform P.os s.content) ≠ some rc))
      ∧ (Eff.mergeCall ∈ effs →
          ((P.mergeFn (localContentOf w) rc
              ((lastSync.bind (fun l => l.syncData)).bind
                (fun s => getKeybindingsContent P.perPlatform P.os s.content))).hasChanges
              = false →
            p.content = none ∧ p.hasLocalChanged = false ∧ p.hasRemoteChanged = false
            ∧ p.hasConflicts = false)
          ∧ ((P.mergeFn (localContentOf w) rc
              ((lastSync.bind (fun l => l.syncData)).bind
                (fun s => getKeybindingsContent P.perPlatform P.os s.content))).hasChanges
              = true →
            p.content = some (P.mergeFn (localContentOf w) rc
              ((lastSync.bind (fun l => l.syncData)).bind
                (fun s => getKeybindingsContent P.perPlatform P.os s.content))).mergeContent
            ∧ p.hasConflicts = (P.mergeFn (localContentOf w) rc
                ((lastSync.bind (fun l => l.syncData)).bind
                  (fun s => getKeybindingsContent P.perPlatform P.os s.content))).hasConflicts
            ∧ (p.hasLocalChanged = true ↔
                ((P.mergeFn (localContentOf w) rc
                  ((lastSync.bind (fun l => l.syncData)).bind
                    (fun s => getKeybindingsContent P.perPlatform P.os s.content))).hasConflicts
                    = true
                 ∨ (P.mergeFn (localContentOf w) rc
                  ((lastSync.bind (fun l => l.syncData)).bind
                    (fun s => getKeybindingsContent P.perPlatform P.os s.content))).mergeContent
                    ≠ localContentOf w))
            ∧ (p.hasRemoteChanged = true ↔
                ((P.mergeFn (localContentOf w) rc
                  ((lastSync.bind (fun l => l.syncData)).bind
                    (fun s => getKeybindingsContent P.perPlatform P.os s.content))).hasConflicts
                    = true
                 ∨ (P.mergeFn (localContentOf w) rc
                  ((lastSync.bind (fun l => l.syncData)).bind
                    (fun s => getKeybindingsContent P.perPlatform P.os s.content))).mergeContent
                    ≠ rc))))
      ∧ (Eff.mergeCall ∉ effs →
          p.content = none ∧ p.hasLocalChanged = false ∧ p.hasRemoteChanged = false
          ∧ p.hasConflicts = false) := by
  rw [generatePreview_truthy P w remote lastSync sd rc hsd hrc hne hval]
  by_cases hC : ((lastSync.bind (fun l => l.syncData)).bind
      (fun s => getKeybindingsContent P.perPlatform P.os s.content) = none
    ∨ (lastSync.bind (fun l => l.syncData)).bind
        (fun s => getKeybindingsContent P.perPlatform P.os s.content)
        ≠ some (localContentOf w)
    ∨ (lastSync.bind (fun l => l.syncData)).bind
        (fun s => getKeybindingsContent P.perPlatform P.os s.content) ≠ some rc)
  · have hg := (mergeGuard_iff _ (localContentOf w) rc hne).mpr hC
    cases hch : (P.mergeFn (localContentOf w) rc
        ((lastSync.bind (fun l => l.syncData)).bind
          (fun s => getKeybindingsContent P.perPlatform P.os s.content))).hasChanges
    · rw [previewCore_guardTrue_nochanges P _ _ rc hg hch]
      simp only [PreviewCore.nothing, jsTruthy, Bool.false_eq_true, if_false, List.append_nil]
      refine ⟨_, _, _, rfl, ?_, ?_, ?_⟩
      · exact ⟨fun _ => hC, fun _ => by simp⟩
      · exact fun _ => ⟨fun _ => ⟨rfl, rfl, rfl, rfl⟩,
          fun hc => absurd hc (by simp [hch])⟩
      · intro hnm
        exact absurd (by simp) hnm
    · rw [previewCore_guardTrue_changes P _ _ rc hg hch]
      refine ⟨_, _, _, rfl, ?_, ?_, ?_⟩
      · exact ⟨fun _ => hC, fun _ => by simp⟩
      · refine fun _ => ⟨fun hnc => absurd hnc (by simp [hch]), fun _ => ⟨rfl, rfl, ?_, ?_⟩⟩ <;>
          simp [Bool.or_eq_true, Bool.not_eq_true', beq_eq_false_iff_ne]
      · intro hnm
        exact absurd (by simp) hnm
  · have hg : (!(jsTruthy ((lastSync.bind (fun l => l.syncData)).bind
        (fun s => getKeybindingsContent P.perPlatform P.os s.content)))
        || ((lastSync.bind (fun l => l.syncData)).bind
            (fun s => getKeybindingsContent P.perPlatform P.os s.content))
            != some (localContentOf w)
        || ((lastSync.bind (fun l => l.syncData)).bind
            (fun s => getKeybindingsContent P.perPlatform P.os s.content)) != some rc)
        = false := by
      cases hcond : (!(jsTruthy ((lastSync.bind (fun l => l.syncData)).bind
          (fun s => getKeybindingsContent P.perPlatform P.os s.content)))
          || ((lastSync.bind (fun l => l.syncData)).bind
              (fun s => getKeybindingsContent P.perPlatform P.os s.content))
              != some (localContentOf w)
          || ((lastSync.bind (fun l => l.syncData)).bind
              (fun s => getKeybindingsContent P.perPlatform P.os s.content)) != some rc)
      · rfl
      · exact absurd ((mergeGuard_iff _ (localContentOf w) rc hne).mp hcond) hC
    rw [previewCore_guardFalse P _ _ rc hg]
    simp only [PreviewCore.nothing, jsTruthy, Bool.false_eq_true, if_false, List.append_nil]
    refine ⟨_, _, _, rfl, ?_, ?_, ?_⟩
    · exact ⟨fun hm => absurd hm (by simp), fun hc => absurd hc hC⟩
    · exact fun hm => absurd hm (by simp)
    · exact fun _ => ⟨rfl, rfl, rfl, rfl⟩

/-- C4 (witness): with no last-sync content the merge engine is invoked. -/
theorem C4_generatePreview_merge_witness :
    ∃ w' effs p, generatePreview Ptest wC3
        { ref := 9, syncData := some { version := 1, content := envAll "X" } } none
      = (w', effs, .ok p) ∧ Eff.mergeCall ∈ effs := by
  obtain ⟨w', effs, p, heq, hiff, -, -⟩ :=
    C4_generatePreview_merge Ptest wC3
      { ref := 9, syncData := some { version := 1, content := envAll "X" } } none
      { version := 1, content := envAll "X" } "X" rfl rfl (by decide) rfl
  exact ⟨w', effs, p, heq, hiff.mpr (Or.inl rfl)⟩

/-- `generatePreview` when the extracted remote content is falsy: the
first-time-sync branch. -/
theorem generatePreview_falsy (P : SyncParams) (w : World) (remote : RemoteUserData)
    (lastSync : Option RemoteUserData)
    (hfalsy : jsTruthy (remote.syncData.bind
      (fun sd => getKeybindingsContent P.perPlatform P.os sd.content)) = false) :
    generatePreview P w remote lastSync
      = match w.localFile with
        | some fc =>
          ((if jsTruthy (some fc.value) then { w with previewFile := some fc.value } else w),
           (if jsTruthy (some fc.value) then [Eff.previewWrite] else []),
           .ok { fileContent := some fc, remoteUserData := remote
                 lastSyncUserData := lastSync, content := some fc.value
                 hasLocalChanged := false, hasRemoteChanged := true, hasConflicts := false })
        | none =>
          (w, [],
           .ok { fileContent := none, remoteUserData := remote
                 lastSyncUserData := lastSync, content := none
                 hasLocalChanged := false, hasRemoteChanged := false
                 hasConflicts := false }) := by
  cases h : w.localFile with
  | none =>
    simp only [generatePreview, h, hfalsy, Bool.false_eq_true, if_false]
    simp [jsTruthy, PreviewCore.nothing]
  | some fc =>
    simp only [generatePreview, h, hfalsy, Bool.false_eq_true, if_false]
    simp [jsTruthy]

/-- C10: when the remote resource exists but the keybindings content
extracted for the current platform is absent or empty, `generatePreview`
behaves as if no remote data existed: no merge is invoked, no validation
error can occur (the parameters' validity check is arbitrary here), and
existing local file content becomes the candidate content with
`hasRemoteChanged` set, to be pushed by `apply`. -/
theorem C10_falsy_remote_first_sync (P : SyncParams) (w : World) (remote : RemoteUserData)
    (lastSync : Option RemoteUserData) (sd : SyncData)
    (hsd : remote.syncData = some sd)
    (hfalsy : jsTruthy (getKeybindingsContent P.perPlatform P.os sd.content) = false) :
    ∃ w' effs p, generatePreview P w remote lastSync = (w', effs, .ok p)
      ∧ Eff.mergeCall ∉ effs
      ∧ p.hasConflicts = false
      ∧ p.hasLocalChanged = false
      ∧ (∀ fc, w.localFile = some fc →
          p.content = some fc.value ∧ p.hasRemoteChanged = true)
      ∧ (w.localFile = none → p.content = none ∧ p.hasRemoteChanged = false) := by
  have hf : jsTruthy (remote.syncData.bind
      (fun s => getKeybindingsContent P.perPlatform P.os s.content)) = false := by
    rw [hsd, Option.some_bind]
    exact hfalsy
  rw [generatePreview_falsy P w remote lastSync hf]
  cases h : w.localFile with
  | some fc =>
    refine ⟨_, _, _, rfl, ?_, rfl, rfl, ?_, ?_⟩
    · cases hj : jsTruthy (some fc.value) <;> simp [hj]
    · intro fc' hfc'
      cases hfc'
      exact ⟨rfl, rfl⟩
    · intro h0
      cases h0
  | none =>
    refine ⟨_, _, _, rfl, ?_, rfl, rfl, ?_, ?_⟩
    · simp
    · intro fc' hfc'
      cases hfc'
    · intro _
      exact ⟨rfl, rfl⟩

/-- C10 (witness): a remote envelope whose platform slot holds the empty
string stages the local content `[1]` for push. -/
theorem C10_falsy_remote_first_sync_witness :
    ∃ w' effs p, generatePreview Ptest wC8
        { ref := 6, syncData := some { version := 1, content := envAll "" } } none
      = (w', effs, .ok p)
      ∧ Eff.mergeCall ∉ effs
      ∧ p.content = some "[1]" ∧ p.hasRemoteChanged = true ∧ p.hasConflicts = false := by
  obtain ⟨w', effs, p, heq, hnm, hc, -, hsome, -⟩ :=
    C10_falsy_remote_first_sync Ptest wC8
      { ref := 6, syncData := some { version := 1, content := envAll "" } } none
      { version := 1, content := envAll "" } rfl (by decide)
  obtain ⟨h1, h2⟩ := hsome ⟨"[1]", 0⟩ rfl
  exact ⟨w', effs, p, heq, hnm, h1, h2, hc⟩

/-- The checkpoint step never performs a remote write. -/
theorem applyCheckpoint_no_remoteWrite (P : SyncParams) (pv : FileSyncPreviewResult)
    (rn : RemoteUserData) (w : World) (ro : Option Ref) :
    Eff.remoteWrite ro ∉ (applyCheckpoint P pv rn w).2 := by
  rw [applyCheckpoint]
  split <;> simp

/-- Every remote write of a force-push `apply` is issued with no `If-Match`
ref. -/
theorem apply_forcePush_writeRefs (P : SyncParams) (w : World)
    (pv? : Option FileSyncPreviewResult) (ro : Option Ref) :
    Eff.remoteWrite ro ∈ (apply P true w pv?).2.2.1 → ro = none := by
  intro hm
  rcases pv? with _ | pv
  · simp [apply] at hm
  · rcases hc : pv.content with _ | c
    · simp only [apply, hc] at hm
      exact absurd hm (applyCheckpoint_no_remoteWrite P pv pv.remoteUserData w ro)
    · simp only [apply, hc] at hm
      split at hm
      · simp at hm
      · split at hm
        · split_ifs at hm <;> simp at hm
        · split at hm
          · simp only [List.mem_append] at hm
            rcases hm with h | h <;> split_ifs at h <;> simp at h
          · rename_i w3 remoteNow heq
            simp only [List.mem_append] at hm
            rcases hm with (((h | h) | h) | h) | h
            · split_ifs at h <;> simp at h
            · split_ifs at h <;> simp at h
            · split_ifs at h <;> simp_all
            · simp at h
            · exact absurd h (applyCheckpoint_no_remoteWrite P pv remoteNow _ ro)

/-- C8: called in `HasConflicts` with an in-flight preview, `accept`
replaces the preview's candidate content with the supplied resolution and
runs `apply` with `forcePush = true`; on success the status returns to
`Idle`; and every remote write of the run is issued with no `If-Match`
ref. -/
theorem C8_accept (P : SyncParams) (c : String) (w : World) (es : EngineState)
    (p : FileSyncPreviewResult)
    (hst : es.status = .hasConflicts) (hpv : es.preview = some p) :
    (accept P c w es
      = match apply P true w (some { p with content := some c }) with
        | (w1, pv1, effs1, .ok ()) =>
          (w1, { es with status := .idle, preview := pv1 }, effs1, .ok ())
        | (w1, pv1, effs1, .error e) =>
          (w1, { es with preview := pv1 }, effs1, .error e))
    ∧ (∀ w' es' effs', accept P c w es = (w', es', effs', .ok ()) → es'.status = .idle)
    ∧ (∀ w' es' effs' r ro, accept P c w es = (w', es', effs', r) →
        Eff.remoteWrite ro ∈ effs' → ro = none) := by
  have hacc : accept P c w es
      = match apply P true w (some { p with content := some c }) with
        | (w1, pv1, effs1, .ok ()) =>
          (w1, { es with status := .idle, preview := pv1 }, effs1, .ok ())
        | (w1, pv1, effs1, .error e) =>
          (w1, { es with preview := pv1 }, effs1, .error e) := by
    rw [accept, hst, hpv]
    simp only [beq_self_eq_true, if_true]
  refine ⟨hacc, ?_, ?_⟩
  · intro w' es' effs' heq
    rw [hacc] at heq
    split at heq
    · rename_i w1 pv1 effs1 u happly
      injection heq with h1 h2
      injection h2 with h2 h3
      rw [← h2]
    · rename_i w1 pv1 effs1 e happly
      injection heq with h1 h2
      injection h2 with h2 h3
      injection h3 with h3 h4
      exact absurd h4 (by simp)
  · intro w' es' effs' r ro heq hmem
    rw [hacc] at heq
    split at heq <;>
      (rename_i w1 pv1 effs1 u happly
       injection heq with h1 h2
       injection h2 with h2 h3
       injection h3 with h3 h4
       rw [← h3] at hmem
       exact apply_forcePush_writeRefs P w (some { p with content := some c }) ro
         (by rw [happly]; exact hmem))

/-- C8 (witness): accepting the resolution `[9]` on a conflicted preview
applies it to both sides with an unconditional remote write and returns to
`Idle`. -/
theorem C8_accept_witness :
    ∃ w' es' effs', accept Ptest "[9]" wC8
        { status := .hasConflicts, enabled := true, preview := some pvC8 }
      = (w', es', effs', .ok ()) ∧ es'.status = .idle
      ∧ ∀ ro, Eff.remoteWrite ro ∈ effs' → ro = none := by
  have h := C8_accept Ptest "[9]" wC8
    { status := .hasConflicts, enabled := true, preview := some pvC8 } pvC8 rfl rfl
  have heq : accept Ptest "[9]" wC8
      { status := .hasConflicts, enabled := true, preview := some pvC8 }
      = ((accept Ptest "[9]" wC8
          { status := .hasConflicts, enabled := true, preview := some pvC8 }).1,
         (accept Ptest "[9]" wC8
          { status := .hasConflicts, enabled := true, preview := some pvC8 }).2.1,
         (accept Ptest "[9]" wC8
          { status := .hasConflicts, enabled := true, preview := some pvC8 }).2.2.1,
         .ok ()) := rfl
  exact ⟨_, _, _, heq, h.2.1 _ _ _ heq, fun ro hm => h.2.2 _ _ _ _ ro heq hm⟩

/-- C3 (code bug, evaluated): on a preview with `hasLocalChanged`, `apply`
snapshots the envelope of the *merged* candidate content `NEW` to the
backup store — the pre-change local content `OLD` is nowhere in the
backups — before overwriting the local file; and when the local file's
stamp has changed since the preview was read, the conditional write raises
`LocalPreconditionFailed` and leaves the file untouched. -/
theorem C3_backup_eval :
    (apply Ptest false wC3 (some pvC3)).2.2.2 = .ok ()
    ∧ (apply Ptest false wC3 (some pvC3)).1.backups
        = [{ version := 1, content := envAll "NEW" }]
    ∧ ({ version := 1, content := envAll "OLD" } : SyncData)
        ∉ (apply Ptest false wC3 (some pvC3)).1.backups
    ∧ (apply Ptest false wC3 (some pvC3)).1.localFile = some ⟨"NEW", 1⟩
    ∧ (apply Ptest false { wC3 with localFile := some ⟨"EXTERNAL", 9⟩ } (some pvC3)).2.2.2
        = .error .localPreconditionFailed
    ∧ (apply Ptest false { wC3 with localFile := some ⟨"EXTERNAL", 9⟩ }
        (some pvC3)).1.localFile = some ⟨"EXTERNAL", 9⟩ := by
  exact ⟨rfl, rfl, by decide, rfl, rfl, rfl⟩

/-- C5 (counterexample): a run in which the remote was rewritten with
identical content by another device — the preview (generated by the code
itself) carries no candidate content and no local file, the remote ref `7`
differs from the checkpointed ref `5`, and a successful `apply` leaves the
checkpoint untouched, contradicting "updated exactly when the remote ref
changed or the content changed". -/
theorem C5_counterexample :
    generatePreview Ptest wC5 { ref := 7, syncData := some sdBrK }
        (some { ref := 5, syncData := some sdBrK })
      = (wC5, [], .ok pvC5)
    ∧ (pvC5.lastSyncUserData.map (fun l => l.ref)) ≠ some pvC5.remoteUserData.ref
    ∧ apply Ptest false wC5 (some pvC5) = (wC5, none, [], .ok ())
    ∧ wC5.checkpoint = some (5, sdBrK) := by
  exact ⟨rfl, by decide, rfl, rfl⟩

/-- The world component of the checkpoint step: `remoteRef` untouched, the
checkpoint rewritten exactly under the step's condition. -/
theorem applyCheckpoint_spec (P : SyncParams) (pv : FileSyncPreviewResult)
    (rn : RemoteUserData) (w : World) :
    (applyCheckpoint P pv rn w).1.remoteRef = w.remoteRef
    ∧ (applyCheckpoint P pv rn w).1.localFile = w.localFile
    ∧ (applyCheckpoint P pv rn w).1.checkpoint
      = (if ((pv.lastSyncUserData.map (fun l => l.ref)) != some rn.ref)
            && (pv.content.isSome || pv.fileContent.isSome) then
           some (rn.ref, { version := bangVersion rn.syncData
                           content := toSyncContent P.perPlatform P.os (applyCpBase pv) none })
         else w.checkpoint) := by
  refine ⟨?_, ?_, ?_⟩
  · rw [applyCheckpoint]
    split <;> rfl
  · rw [applyCheckpoint]
    split <;> rfl
  · rw [applyCheckpoint]
    split <;> rfl

/-- A successful local conditional write preserves everything but the file
and the clock. -/
theorem updateLocal_preserves (w : World) (c : String) (old : Option FileContent)
    (w2 : World) (h : updateLocalFileContent w c old = .ok w2) :
    w2.remoteRef = w.remoteRef ∧ w2.remoteData = w.remoteData ∧ w2.nextRef = w.nextRef
    ∧ w2.checkpoint = w.checkpoint ∧ w2.backups = w.backups
    ∧ w2.previewFile = w.previewFile
    ∧ w2.localFile = some ⟨c, w.clock⟩ := by
  rcases old with _ | oc
  · unfold updateLocalFileContent at h
    rcases hl : w.localFile with _ | fc <;> simp only [hl] at h
    · injection h with h
      subst h
      exact ⟨rfl, rfl, rfl, rfl, rfl, rfl, rfl⟩
    · cases h
  · unfold updateLocalFileContent at h
    rcases hl : w.localFile with _ | fc <;> simp only [hl] at h
    · injection h with h
      subst h
      exact ⟨rfl, rfl, rfl, rfl, rfl, rfl, rfl⟩
    · split at h
      · injection h with h
        subst h
        exact ⟨rfl, rfl, rfl, rfl, rfl, rfl, rfl⟩
      · cases h

/-- A successful remote write stores the envelope under the fresh ref. -/
theorem updateRemote_spec (w : World) (content : KbSyncContent) (refArg : Option Ref)
    (w3 : World) (rn : RemoteUserData)
    (h : updateRemoteUserData w content refArg = .ok (w3, rn)) :
    w3 = { w with
             remoteRef := w.nextRef
             remoteData := some { version := engineVersion, content := content }
             nextRef := w.nextRef + 1 }
    ∧ rn = { ref := w.nextRef
             syncData := some { version := engineVersion, content := content } } := by
  rcases refArg with _ | r
  · simp only [updateRemoteUserData, storeWrite] at h
    injection h with h
    injection h with h1 h2
    exact ⟨h1.symm, h2.symm⟩
  · simp only [updateRemoteUserData, storeWrite] at h
    split at h
    · rename_i w' r' heq
      split at heq
      · injection heq with heq2
        injection heq2 with e1 e2
        injection h with h
        injection h with h1 h2
        subst e1
        subst e2
        exact ⟨h1.symm, h2.symm⟩
      · cases heq
    · cases h

/-- C5 (amended): a successful `apply` updates the last-sync checkpoint
exactly when the final remote ref — the fresh ref from the remote write
when one is performed, else the preview's remote snapshot ref — differs
from the checkpoint's ref AND the preview carries candidate content or
local file content; each such update writes the pair of that final ref and
the envelope of the candidate-or-file content, and the written ref equals
the store's current ref at write time, given the preview's remote snapshot
was current when no remote write occurred. -/
theorem C5_checkpoint_amended (P : SyncParams) (fp : Bool) (w : World)
    (pv : FileSyncPreviewResult) (w' : World) (pv' : Option FileSyncPreviewResult)
    (effs : List Eff)
    (hok : apply P fp w (some pv) = (w', pv', effs, .ok ()))
    (hcur : (pv.content.isSome && pv.hasRemoteChanged) = false →
      pv.remoteUserData.ref = w.remoteRef) :
    (w'.checkpoint
      = if ((pv.lastSyncUserData.map (fun l => l.ref)) != some (applyFinalRef w pv))
           && (pv.content.isSome || pv.fileContent.isSome) then
          some (applyFinalRef w pv,
            { version := applyFinalVersion pv
              content := toSyncContent P.perPlatform P.os (applyCpBase pv) none })
        else w.checkpoint)
    ∧ ((((pv.lastSyncUserData.map (fun l => l.ref)) != some (applyFinalRef w pv))
         && (pv.content.isSome || pv.fileContent.isSome)) = true →
        applyFinalRef w pv = w'.remoteRef) := by
  rcases hcnt : pv.content with _ | c
  · -- no candidate content: the checkpoint step runs against the snapshot
    have hfr : applyFinalRef w pv = pv.remoteUserData.ref := by
      simp [applyFinalRef, hcnt]
    have hfv : applyFinalVersion pv = bangVersion pv.remoteUserData.syncData := by
      simp [applyFinalVersion, hcnt]
    simp only [apply, hcnt] at hok
    injection hok with h1 h2
    injection h2 with h2 h3
    injection h3 with h3 h4
    subst h1
    obtain ⟨hr, -, hcp⟩ := applyCheckpoint_spec P pv pv.remoteUserData w
    constructor
    · rw [hcp, hfr, hfv, hcnt]
    · intro hcond
      rw [hfr, hr]
      exact hcur (by simp [hcnt])
  · -- candidate content present
    have hfrT : pv.hasRemoteChanged = true → applyFinalRef w pv = w.nextRef := by
      intro h
      simp [applyFinalRef, hcnt, h]
    have hfrF : pv.hasRemoteChanged = false → applyFinalRef w pv = pv.remoteUserData.ref := by
      intro h
      simp [applyFinalRef, hcnt, h]
    have hfvT : pv.hasRemoteChanged = true → applyFinalVersion pv = engineVersion := by
      intro h
      simp [applyFinalVersion, hcnt, h]
    have hfvF : pv.hasRemoteChanged = false →
        applyFinalVersion pv = bangVersion pv.remoteUserData.syncData := by
      intro h
      simp [applyFinalVersion, hcnt, h]
    simp only [apply, hcnt] at hok
    split at hok
    · cases hok
    · rcases hlb : pv.hasLocalChanged with _ | _ <;>
        simp only [hlb, Bool.false_eq_true, if_false, if_true] at hok
      · -- no local change: the local phase leaves the world untouched
        rcases hrb : pv.hasRemoteChanged with _ | _ <;>
          simp only [hrb, Bool.false_eq_true, if_false, if_true] at hok
        · injection hok with h1 h2
          injection h2 with h2 h3
          injection h3 with h3 h4
          subst h1
          obtain ⟨hr, -, hcp⟩ := applyCheckpoint_spec P pv pv.remoteUserData
            { w with previewFile := none }
          constructor
          · simp only [hcp, hfrF hrb, hfvF hrb, hcnt]
          · intro _
            rw [hfrF hrb, hr]
            exact hcur (by simp [hcnt, hrb])
        · split at hok
          · cases hok
          · rename_i w3 remoteNow heq
            obtain ⟨hw3, hrn⟩ := updateRemote_spec w _ _ w3 remoteNow heq
            injection hok with h1 h2
            injection h2 with h2 h3
            injection h3 with h3 h4
            subst h1
            obtain ⟨hr, -, hcp⟩ := applyCheckpoint_spec P pv remoteNow
              { w3 with previewFile := none }
            constructor
            · rw [hcp]
              simp only [hrn, hfrT hrb, hfvT hrb, hw3, hcnt, bangVersion, engineVersion]
            · intro _
              rw [hfrT hrb, hr]
              simp [hw3]
      · -- local change: run the conditional local write
        split at hok
        · cases hok
        · rename_i w2 hw2
          obtain ⟨hw2r, -, hw2n, hw2c, -, -, -⟩ :=
            updateLocal_preserves _ c pv.fileContent w2 hw2
          rcases hrb : pv.hasRemoteChanged with _ | _ <;>
            simp only [hrb, Bool.false_eq_true, if_false, if_true] at hok
          · injection hok with h1 h2
            injection h2 with h2 h3
            injection h3 with h3 h4
            subst h1
            obtain ⟨hr, -, hcp⟩ := applyCheckpoint_spec P pv pv.remoteUserData
              { w2 with previewFile := none }
            constructor
            · rw [hcp]
              simp only [hw2c, hfrF hrb, hfvF hrb, hcnt]
            · intro _
              rw [hfrF hrb, hr]
              simp only [hw2r]
              exact hcur (by simp [hcnt, hrb])
          · split at hok
            · cases hok
            · rename_i w3 remoteNow heq
              obtain ⟨hw3, hrn⟩ := updateRemote_spec w2 _ _ w3 remoteNow heq
              injection hok with h1 h2
              injection h2 with h2 h3
              injection h3 with h3 h4
              subst h1
              obtain ⟨hr, -, hcp⟩ := applyCheckpoint_spec P pv remoteNow
                { w3 with previewFile := none }
              constructor
              · rw [hcp]
                simp only [hrn, hfrT hrb, hfvT hrb, hw3, hw2n, hw2c, hcnt,
                  bangVersion, engineVersion]
              · intro _
                rw [hfrT hrb, hr]
                simp [hw3, hw2n]

/-- C5 (witness): the accepted-resolution run updates the checkpoint to the
fresh ref `5` issued by the remote write, which is the store's current ref
afterwards. -/
theorem C5_checkpoint_amended_witness :
    (apply Ptest true wC8 (some { pvC8 with content := some "[9]" })).1.checkpoint
      = some (5, { version := 1, content := envAll "[9]" })
    ∧ applyFinalRef wC8 { pvC8 with content := some "[9]" }
      = (apply Ptest true wC8 (some { pvC8 with content := some "[9]" })).1.remoteRef := by
  obtain ⟨h1, h2⟩ := C5_checkpoint_amended Ptest true wC8
    { pvC8 with content := some "[9]" }
    (apply Ptest true wC8 (some { pvC8 with content := some "[9]" })).1
    (apply Ptest true wC8 (some { pvC8 with content := some "[9]" })).2.1
    (apply Ptest true wC8 (some { pvC8 with content := some "[9]" })).2.2.1
    rfl (fun hh => absurd hh (by decide))
  constructor
  · rw [h1]
    decide
  · exact h2 (by decide)

/-- A remote fetch always reports the store's current ref: on a 304 hit the
returned checkpoint value carries that very ref. -/
theorem getRemoteUserData_ref (w : World) (ls : Option RemoteUserData) :
    (getRemoteUserData w ls).ref = w.remoteRef := by
  unfold getRemoteUserData
  rcases ls with _ | l
  · rfl
  · simp only []
    split
    · rename_i hbeq
      exact eq_of_beq hbeq
    · rfl

/-- Round trip: extracting the platform slot written by `toSyncContent`
gives back the written keybindings content. -/
theorem extract_toSync (pp : Bool) (os : OSKind) (s : String) (prev : Option KbSyncContent) :
    getKeybindingsContent pp os (toSyncContent pp os s prev) = some s := by
  cases pp <;> cases os <;> cases prev <;>
    simp [getKeybindingsContent, toSyncContent]

/-- A failing `generatePreview` changes nothing, logs nothing, and fails
with `LocalInvalidContent`. -/
theorem gen_error_eq (P : SyncParams) (w : World) (remote : RemoteUserData)
    (lastSync : Option RemoteUserData) (w' : World) (effs : List Eff) (e : SyncErrorCode)
    (h : generatePreview P w remote lastSync = (w', effs, .error e)) :
    w' = w ∧ effs = [] ∧ e = .localInvalidContent := by
  rw [generatePreview] at h
  split at h
  · rename_i e2 heq
    injection h with h1 h2
    injection h2 with h2 h3
    injection h3 with h4
    refine ⟨h1.symm, h2.symm, ?_⟩
    rw [← h4]
    split at heq
    · split at heq <;>
        (dsimp only [] at heq
         split at heq
         · injection heq with heq5
           exact heq5.symm
         · cases heq)
    · split at heq <;> cases heq
  · simp at h

/-- A successful `generatePreview` reads but does not write: only the
preview file may change, and the preview snapshots the inputs. -/
theorem gen_ok_state (P : SyncParams) (w : World) (remote : RemoteUserData)
    (lastSync : Option RemoteUserData) (w' : World) (effs : List Eff)
    (p : FileSyncPreviewResult)
    (h : generatePreview P w remote lastSync = (w', effs, .ok p)) :
    p.fileContent = w.localFile ∧ p.remoteUserData = remote ∧ p.lastSyncUserData = lastSync
    ∧ w'.localFile = w.localFile ∧ w'.remoteRef = w.remoteRef
    ∧ w'.remoteData = w.remoteData ∧ w'.nextRef = w.nextRef ∧ w'.clock = w.clock
    ∧ w'.checkpoint = w.checkpoint ∧ w'.backups = w.backups := by
  rw [generatePreview] at h
  split at h
  · simp at h
  · rename_i core heq
    injection h with h1 h2
    injection h2 with h2 h3
    injection h3 with h4
    subst h4
    rw [← h1]
    refine ⟨rfl, rfl, rfl, ?_, ?_, ?_, ?_, ?_, ?_, ?_⟩ <;> (split <;> rfl)

/-- A conditional local write whose precondition is the file's current
state never fails. -/
theorem updateLocal_no_error (wx : World) (c : String) (old : Option FileContent)
    (e : SyncErrorCode) (h : updateLocalFileContent wx c old = .error e) :
    old ≠ wx.localFile := by
  intro hh
  rw [hh] at h
  unfold updateLocalFileContent at h
  rcases hl : wx.localFile with _ | fc <;> simp [hl] at h

/-- A remote write conditioned on the store's current ref never fails. -/
theorem updateRemote_no_error (wx : World) (content : KbSyncContent)
    (refArg : Option Ref) (e : SyncErrorCode)
    (h : updateRemoteUserData wx content refArg = .error e) :
    refArg ≠ some wx.remoteRef := by
  intro hh
  rw [hh] at h
  simp [updateRemoteUserData, storeWrite] at h

/-- Under the in-flow conditions — the preview's file snapshot matches the
current local file and its remote snapshot ref is current — a failing
non-force `apply` can only be a validation failure. -/
theorem apply_error_eq (P : SyncParams) (w : World) (p : FileSyncPreviewResult)
    (w2 : World) (pv2 : Option FileSyncPreviewResult) (effs : List Eff) (e : SyncErrorCode)
    (happ : apply P false w (some p) = (w2, pv2, effs, .error e))
    (hfc : p.fileContent = w.localFile)
    (href : p.remoteUserData.ref = w.remoteRef) :
    e = .localInvalidContent := by
  rcases hcnt : p.content with _ | c
  · simp only [apply, hcnt] at happ
    simp at happ
  · simp only [apply, hcnt, Bool.false_eq_true, if_false] at happ
    split at happ
    · simp only [Prod.mk.injEq, Except.error.injEq] at happ
      exact happ.2.2.2.symm
    · rcases hlb : p.hasLocalChanged with _ | _ <;>
        simp only [hlb, Bool.false_eq_true, if_false, if_true] at happ
      · rcases hrb : p.hasRemoteChanged with _ | _ <;>
          simp only [hrb, Bool.false_eq_true, if_false, if_true] at happ
        · simp at happ
        · split at happ
          · rename_i e2 heq
            exact absurd (show some p.remoteUserData.ref = some w.remoteRef by rw [href])
              (updateRemote_no_error w _ _ e2 heq)
          · simp at happ
      · split at happ
        · rename_i e2 heq
          have hne := updateLocal_no_error _ c p.fileContent e2 heq
          exact absurd (hfc.trans rfl) hne
        · rename_i w2p hw2eq
          have hpr := (updateLocal_preserves _ c p.fileContent w2p hw2eq).1
          rcases hrb : p.hasRemoteChanged with _ | _ <;>
            simp only [hrb, Bool.false_eq_true, if_false, if_true] at happ
          · simp at happ
          · split at happ
            · rename_i e2 heq
              exact absurd (show some p.remoteUserData.ref = some w2p.remoteRef by
                  rw [href, hpr]) (updateRemote_no_error w2p _ _ e2 heq)
            · simp at happ

/-- A successful `apply` always clears the in-flight preview. -/
theorem apply_ok_pv_none (P : SyncParams) (fp : Bool) (w : World)
    (pv? : Option FileSyncPreviewResult) (w2 : World) (pv2 : Option FileSyncPreviewResult)
    (effs : List Eff) (h : apply P fp w pv? = (w2, pv2, effs, .ok ())) : pv2 = none := by
  rcases pv? with _ | pv
  · simp only [apply] at h
    simp only [Prod.mk.injEq] at h
    exact h.2.1.symm
  · rcases hcnt : pv.content with _ | c
    · simp only [apply, hcnt] at h
      simp only [Prod.mk.injEq] at h
      exact h.2.1.symm
    · simp only [apply, hcnt] at h
      split at h
      · simp at h
      · split at h
        · simp at h
        · split at h
          · simp at h
          · simp only [Prod.mk.injEq] at h
            exact h.2.1.symm

/-- `getRemoteUserData` only consults the store's current ref and data. -/
theorem getRemoteUserData_congr (w v : World) (ls : Option RemoteUserData)
    (h1 : w.remoteRef = v.remoteRef) (h2 : w.remoteData = v.remoteData) :
    getRemoteUserData w ls = getRemoteUserData v ls := by
  unfold getRemoteUserData
  rw [h1, h2]

/-- The parsed checkpoint's ref is the checkpoint pair's first component. -/
theorem cpToRemote_ref_map (cp : Option (Ref × SyncData)) :
    (cpToRemote cp).map (fun l => l.ref) = cp.map (fun x => x.1) := by
  rcases cp with _ | ⟨r, sd⟩ <;> rfl

/-- A truthy nullable string is a non-empty string. -/
theorem jsTruthy_iff (o : Option String) :
    jsTruthy o = true ↔ ∃ s, o = some s ∧ s ≠ "" := by
  rcases o with _ | s <;> simp [jsTruthy]

/-- The three possible outcomes of the preview core: guard failed, merge
without changes, or merge with changes and derived flags. -/
theorem previewCore_cases (P : SyncParams) (rc lq : Option String) (lc : String) :
    previewCore P rc lq lc = PreviewCore.nothing
    ∨ previewCore P rc lq lc = { PreviewCore.nothing with mergeCalled := true }
    ∨ ((P.mergeFn lc (rc.getD "") lq).hasChanges = true
       ∧ previewCore P rc lq lc
         = { content := some (P.mergeFn lc (rc.getD "") lq).mergeContent
             hasConflicts := (P.mergeFn lc (rc.getD "") lq).hasConflicts
             hasLocalChanged := (P.mergeFn lc (rc.getD "") lq).hasConflicts
               || !((P.mergeFn lc (rc.getD "") lq).mergeContent == lc)
             hasRemoteChanged := (P.mergeFn lc (rc.getD "") lq).hasConflicts
               || !((P.mergeFn lc (rc.getD "") lq).mergeContent == rc.getD "")
             mergeCalled := true }) := by
  unfold previewCore
  dsimp only []
  split
  · split
    · rename_i hch
      exact Or.inr (Or.inr ⟨hch, rfl⟩)
    · exact Or.inr (Or.inl rfl)
  · exact Or.inl rfl

/-- The checkpoint step touches nothing but the checkpoint file. -/
theorem applyCheckpoint_fields (P : SyncParams) (pv : FileSyncPreviewResult)
    (rn : RemoteUserData) (w : World) :
    (applyCheckpoint P pv rn w).1.remoteData = w.remoteData
    ∧ (applyCheckpoint P pv rn w).1.nextRef = w.nextRef
    ∧ (applyCheckpoint P pv rn w).1.previewFile = w.previewFile := by
  refine ⟨?_, ?_, ?_⟩ <;> (rw [applyCheckpoint]; split <;> rfl)

/-- `apply` without candidate content and without local file content is a
complete no-op. -/
theorem apply_none_noFile (P : SyncParams) (fp : Bool) (w : World)
    (pv : FileSyncPreviewResult) (hc : pv.content = none)
    (hf : pv.fileContent = none) :
    apply P fp w (some pv) = (w, none, [], .ok ()) := by
  simp only [apply, hc, applyCheckpoint, hf, Option.isSome_none, Bool.or_self,
    Bool.and_false, Bool.false_eq_true, if_false]

/-- `apply` without candidate content, when the last-sync ref already
matches the remote snapshot's, is a complete no-op. -/
theorem apply_none_agree (P : SyncParams) (fp : Bool) (w : World)
    (pv : FileSyncPreviewResult) (hc : pv.content = none)
    (hagree : ((pv.lastSyncUserData.map (fun l => l.ref))
      != some pv.remoteUserData.ref) = false) :
    apply P fp w (some pv) = (w, none, [], .ok ()) := by
  simp only [apply, hc, applyCheckpoint, hagree, Bool.false_and, Bool.false_eq_true,
    if_false]

/-- `apply` without candidate content but with file content and a stale
last-sync ref only rewrites the checkpoint, to the remote snapshot's ref
and the envelope of the local file content. -/
theorem apply_none_disagree (P : SyncParams) (fp : Bool) (w : World)
    (pv : FileSyncPreviewResult) (fc : FileContent) (hc : pv.content = none)
    (hf : pv.fileContent = some fc)
    (hbne : ((pv.lastSyncUserData.map (fun l => l.ref))
      != some pv.remoteUserData.ref) = true) :
    apply P fp w (some pv)
      = ({ w with checkpoint := some (pv.remoteUserData.ref,
            { version := bangVersion pv.remoteUserData.syncData
              content := toSyncContent P.perPlatform P.os fc.value none }) },
         none, [.checkpointWrite pv.remoteUserData.ref], .ok ()) := by
  simp only [apply, hc, applyCheckpoint, hf, hbne, Option.isSome_none,
    Option.isSome_some, Bool.false_or, Bool.true_and, Bool.and_self, if_true]

/-- Branch structure of a successful `generatePreview`: with truthy remote
content the local content is valid and the candidate content and flags come
from the preview core; with falsy remote content existing local file
content is staged for push and an absent file stages nothing. -/
theorem gen_ok_core (P : SyncParams) (w : World) (remote : RemoteUserData)
    (lastSync : Option RemoteUserData) (wg : World) (effs : List Eff)
    (p : FileSyncPreviewResult)
    (h : generatePreview P w remote lastSync = (wg, effs, .ok p)) :
    (jsTruthy (genRcq P remote) = true →
      P.hasErrors (localContentOf w) = false
      ∧ p.content = (previewCore P (genRcq P remote) (genLq P lastSync)
          (localContentOf w)).content
      ∧ p.hasLocalChanged = (previewCore P (genRcq P remote) (genLq P lastSync)
          (localContentOf w)).hasLocalChanged
      ∧ p.hasRemoteChanged = (previewCore P (genRcq P remote) (genLq P lastSync)
          (localContentOf w)).hasRemoteChanged
      ∧ p.hasConflicts = (previewCore P (genRcq P remote) (genLq P lastSync)
          (localContentOf w)).hasConflicts)
    ∧ (jsTruthy (genRcq P remote) = false →
        (∀ fc, w.localFile = some fc →
          p.content = some fc.value ∧ p.hasLocalChanged = false
          ∧ p.hasRemoteChanged = true ∧ p.hasConflicts = false)
        ∧ (w.localFile = none →
          p.content = none ∧ p.hasLocalChanged = false
          ∧ p.hasRemoteChanged = false ∧ p.hasConflicts = false)) := by
  rw [generatePreview] at h
  split at h
  · rename_i e heq
    injection h with h1 h2
    injection h2 with h2 h3
    cases h3
  · rename_i core heq
    injection h with h1 h2
    injection h2 with h2 h3
    injection h3 with h4
    subst h4
    dsimp only [] at heq
    have hlc : (match w.localFile with | some fc => fc.value | none => "[]")
        = localContentOf w := by
      cases hx : w.localFile <;> simp [localContentOf, hx]
    constructor
    · intro htr
      unfold genRcq at htr
      simp only [htr, if_true] at heq
      rw [hlc] at heq
      split at heq
      · cases heq
      · rename_i hverr
        rw [Bool.not_eq_true] at hverr
        injection heq with heq
        subst heq
        exact ⟨hverr, rfl, rfl, rfl, rfl⟩
    · intro hfalsy
      unfold genRcq at hfalsy
      simp only [hfalsy, Bool.false_eq_true, if_false] at heq
      constructor
      · intro fc hfc
        rw [hfc] at heq
        injection heq with heq
        subst heq
        exact ⟨rfl, rfl, rfl, rfl⟩
      · intro hnone
        rw [hnone] at heq
        injection heq with heq
        subst heq
        exact ⟨rfl, rfl, rfl, rfl⟩

/-- Field-level effect of a successful `apply` with candidate content: the
local file is rewritten exactly on `hasLocalChanged`, the remote store
exactly on `hasRemoteChanged` (under a fresh ref, with the envelope of the
candidate content), and the checkpoint exactly when the final remote ref
differs from the last-sync ref. -/
theorem apply_ok_spec (P : SyncParams) (fp : Bool) (w : World)
    (pv : FileSyncPreviewResult) (c : String) (w' : World)
    (pv' : Option FileSyncPreviewResult) (effs : List Eff)
    (hc : pv.content = some c)
    (hok : apply P fp w (some pv) = (w', pv', effs, .ok ())) :
    w'.localFile = (if pv.hasLocalChanged then some ⟨c, w.clock⟩ else w.localFile)
    ∧ w'.remoteRef = (if pv.hasRemoteChanged then w.nextRef else w.remoteRef)
    ∧ w'.remoteData = (if pv.hasRemoteChanged then
        some { version := engineVersion
               content := toSyncContent P.perPlatform P.os c
                 (pv.remoteUserData.syncData.map (fun sd => sd.content)) }
        else w.remoteData)
    ∧ w'.checkpoint = (if ((pv.lastSyncUserData.map (fun l => l.ref))
          != some (if pv.hasRemoteChanged then w.nextRef else pv.remoteUserData.ref)) then
        some ((if pv.hasRemoteChanged then w.nextRef else pv.remoteUserData.ref),
          { version := (if pv.hasRemoteChanged then engineVersion
                        else bangVersion pv.remoteUserData.syncData)
            content := toSyncContent P.perPlatform P.os c none })
      else w.checkpoint) := by
  simp only [apply, hc] at hok
  split at hok
  · cases hok
  · rcases hlb : pv.hasLocalChanged with _ | _ <;>
      simp only [hlb, Bool.false_eq_true, if_false, if_true] at hok ⊢
    · rcases hrb : pv.hasRemoteChanged with _ | _ <;>
        simp only [hrb, Bool.false_eq_true, if_false, if_true] at hok ⊢
      · injection hok with h1 h2
        injection h2 with h2 h3
        injection h3 with h3 h4
        subst h1
        obtain ⟨hr, hl, hcp⟩ := applyCheckpoint_spec P pv pv.remoteUserData
          { w with previewFile := none }
        obtain ⟨hd, hn, -⟩ := applyCheckpoint_fields P pv pv.remoteUserData
          { w with previewFile := none }
        refine ⟨?_, ?_, ?_, ?_⟩
        · rw [hl]
        · rw [hr]
        · rw [hd]
        · rw [hcp]
          simp [hc, applyCpBase]
      · split at hok
        · cases hok
        · rename_i w3 remoteNow heq
          obtain ⟨hw3, hrn⟩ := updateRemote_spec w _ _ w3 remoteNow heq
          subst hw3
          subst hrn
          injection hok with h1 h2
          injection h2 with h2 h3
          injection h3 with h3 h4
          subst h1
          obtain ⟨hr, hl, hcp⟩ := applyCheckpoint_spec P pv _ _
          obtain ⟨hd, hn, -⟩ := applyCheckpoint_fields P pv _ _
          refine ⟨?_, ?_, ?_, ?_⟩
          · rw [hl]
          · rw [hr]
          · rw [hd]
          · rw [hcp]
            simp [hc, applyCpBase, bangVersion]
    · split at hok
      · cases hok
      · rename_i w2 hw2
        obtain ⟨hw2r, hw2d, hw2n, hw2c, hw2b, hw2p, hw2l⟩ :=
          updateLocal_preserves _ c pv.fileContent w2 hw2
        rcases hrb : pv.hasRemoteChanged with _ | _ <;>
          simp only [hrb, Bool.false_eq_true, if_false, if_true] at hok ⊢
        · injection hok with h1 h2
          injection h2 with h2 h3
          injection h3 with h3 h4
          subst h1
          obtain ⟨hr, hl, hcp⟩ := applyCheckpoint_spec P pv pv.remoteUserData
            { w2 with previewFile := none }
          obtain ⟨hd, hn, -⟩ := applyCheckpoint_fields P pv pv.remoteUserData
            { w2 with previewFile := none }
          refine ⟨?_, ?_, ?_, ?_⟩
          · rw [hl]
            simp [hw2l]
          · rw [hr]
            simp [hw2r]
          · rw [hd]
            simp [hw2d]
          · rw [hcp]
            simp [hc, applyCpBase, hw2c]
        · split at hok
          · cases hok
          · rename_i w3 remoteNow heq
            obtain ⟨hw3, hrn⟩ := updateRemote_spec w2 _ _ w3 remoteNow heq
            subst hw3
            subst hrn
            injection hok with h1 h2
            injection h2 with h2 h3
            injection h3 with h3 h4
            subst h1
            obtain ⟨hr, hl, hcp⟩ := applyCheckpoint_spec P pv _ _
            obtain ⟨hd, hn, -⟩ := applyCheckpoint_fields P pv _ _
            refine ⟨?_, ?_, ?_, ?_⟩
            · rw [hl]
              simp [hw2l]
            · rw [hr]
              simp [hw2n]
            · rw [hd]
            · rw [hcp]
              simp [hc, applyCpBase, bangVersion, hw2n, hw2c]

/-- A world whose checkpoint agrees with the store's current ref, carries
the (non-empty) local content, and matches the local file is stable. -/
theorem stable_of_cp_self (P : SyncParams) (w : World) (sd : SyncData) (c : String)
    (hcp : w.checkpoint = some (w.remoteRef, sd))
    (hx : getKeybindingsContent P.perPlatform P.os sd.content = some c)
    (hlc : localContentOf w = c) (hcne : c ≠ "") : StableState P w := by
  have hrcq : stRcq P w = some c := by
    unfold stRcq genRcq
    rw [hcp]
    simp [cpToRemote, getRemoteUserData, hx]
  have hlq : stLq P w = some c := by
    unfold stLq genLq
    rw [hcp]
    simp [cpToRemote, hx]
  refine ⟨?_, ?_, ?_⟩
  · intro _ _
    rw [hrcq, hlq, hlc]
    have hguard : (!(jsTruthy (some c)) || some c != some c || some c != some c)
        = false := by
      simp [jsTruthy, hcne]
    rw [previewCore_guardFalse P (some c) c c hguard]
    rfl
  · intro hf
    rw [hrcq] at hf
    simp [jsTruthy, hcne] at hf
  · intro hne3
    rw [hcp] at hne3
    simp at hne3

/-- With the remote snapshot current and no in-flight preview, a failing
`performSync` can only report invalid local content — in particular it
never surfaces `RemotePreconditionFailed`. -/
theorem performSync_no_rpf (P : SyncParams) (f : Nat) (w : World)
    (remote : RemoteUserData) (lastSync : Option RemoteUserData)
    (w1 : World) (pv1 : Option FileSyncPreviewResult) (effs1 : List Eff)
    (e : SyncErrorCode)
    (href : remote.ref = w.remoteRef)
    (h : performSyncFuel P (f + 1) w none remote lastSync
      = some (w1, pv1, effs1, .error e)) :
    e = .localInvalidContent := by
  simp only [performSyncFuel] at h
  rcases hg : generatePreview P w remote lastSync with ⟨wg, effsg, rg⟩
  rcases rg with eg | p
  · obtain ⟨hwg, heffs, he⟩ := gen_error_eq P w remote lastSync wg effsg eg hg
    subst he
    rw [hg] at h
    simp only [] at h
    rw [if_neg (by simp)] at h
    simp only [Option.some.injEq, Prod.mk.injEq, Except.error.injEq] at h
    exact h.2.2.2.symm
  · rw [hg] at h
    simp only [] at h
    obtain ⟨hfc, hpr, -, hwl, hwr, -⟩ := gen_ok_state P w remote lastSync wg effsg p hg
    rcases hpc : p.hasConflicts with _ | _ <;>
      simp only [hpc, Bool.false_eq_true, if_false, if_true] at h
    · rcases happ : apply P false wg (some p) with ⟨w2, pv2, effs2, r2⟩
      rcases r2 with e2 | ⟨⟩
      · have he2 : e2 = .localInvalidContent :=
          apply_error_eq P wg p w2 pv2 effs2 e2 happ (hfc.trans hwl.symm)
            (by rw [hpr, href, hwr])
        subst he2
        rw [happ] at h
        simp only [] at h
        rw [if_neg (by simp)] at h
        simp only [Option.some.injEq, Prod.mk.injEq, Except.error.injEq] at h
        exact h.2.2.2.symm
      · rw [happ] at h
        simp at h
    · simp at h

/-- With the remote snapshot current and no in-flight preview, a
`performSync` run that reports `Idle` consists of exactly one successful
`generatePreview` (without conflicts) followed by one successful `apply`. -/
theorem performSync_ok_idle_inv (P : SyncParams) (f : Nat) (w : World)
    (remote : RemoteUserData) (lastSync : Option RemoteUserData)
    (w1 : World) (pv1 : Option FileSyncPreviewResult) (effs : List Eff)
    (href : remote.ref = w.remoteRef)
    (h : performSyncFuel P (f + 1) w none remote lastSync
      = some (w1, pv1, effs, .ok .idle)) :
    ∃ wg effsg p effsa, generatePreview P w remote lastSync = (wg, effsg, .ok p)
      ∧ p.hasConflicts = false
      ∧ apply P false wg (some p) = (w1, none, effsa, .ok ())
      ∧ pv1 = none ∧ effs = effsg ++ effsa := by
  simp only [performSyncFuel] at h
  rcases hg : generatePreview P w remote lastSync with ⟨wg, effsg, rg⟩
  rcases rg with eg | p
  · obtain ⟨hwg, heffs, he⟩ := gen_error_eq P w remote lastSync wg effsg eg hg
    subst he
    rw [hg] at h
    simp only [] at h
    rw [if_neg (by simp)] at h
    simp at h
  · rw [hg] at h
    simp only [] at h
    obtain ⟨hfc, hpr, -, hwl, hwr, -⟩ := gen_ok_state P w remote lastSync wg effsg p hg
    rcases hpc : p.hasConflicts with _ | _ <;>
      simp only [hpc, Bool.false_eq_true, if_false, if_true] at h
    · rcases happ : apply P false wg (some p) with ⟨w2, pv2, effs2, r2⟩
      rcases r2 with e2 | ⟨⟩
      · have he2 : e2 = .localInvalidContent :=
          apply_error_eq P wg p w2 pv2 effs2 e2 happ (hfc.trans hwl.symm)
            (by rw [hpr, href, hwr])
        subst he2
        rw [happ] at h
        simp only [] at h
        rw [if_neg (by simp)] at h
        simp at h
      · have hpv2 : pv2 = none := apply_ok_pv_none P false wg (some p) w2 pv2 effs2 happ
        subst hpv2
        rw [happ] at h
        simp only [Option.some.injEq, Prod.mk.injEq] at h
        obtain ⟨h1, h2, h3, -⟩ := h
        subst h1
        exact ⟨wg, effsg, p, effs2, rfl, hpc, happ, h2.symm, h3.symm⟩
    · simp at h

/-- In a well-formed world the checkpoint ref never equals the store's
fresh-ref counter. -/
theorem wf_bne_next (w0 : World) (hWF : WFWorld w0) :
    (((cpToRemote w0.checkpoint).map (fun l => l.ref)) != some w0.nextRef) = true := by
  rw [cpToRemote_ref_map]
  rcases hcp0 : w0.checkpoint with _ | ⟨r0, sd0⟩
  · rfl
  · have hlt : r0 < w0.nextRef := hWF.2 r0 sd0 hcp0
    simp only [Option.map_some', bne_iff_ne, ne_eq, Option.some.injEq]
    exact Nat.ne_of_lt hlt

/-- A false boolean disequality is an equality. -/
theorem bne_false_eq {α : Type} [BEq α] [LawfulBEq α] (a b : α)
    (h : (a != b) = false) : a = b := by
  have hb : (a == b) = true := by
    revert h
    cases hab : a == b <;> simp [bne, hab]
  exact eq_of_beq hb

/-- After a successful no-conflict sync round whose preview staged no
candidate content, the world is stable. -/
theorem after_stable_noneContent (P : SyncParams) (w0 wg w1 : World)
    (p : FileSyncPreviewResult) (effsg effsa : List Eff)
    (hg : generatePreview P w0 (getRemoteUserData w0 (cpToRemote w0.checkpoint))
            (cpToRemote w0.checkpoint) = (wg, effsg, .ok p))
    (ha : apply P false wg (some p) = (w1, none, effsa, .ok ()))
    (hNE : localContentOf w1 ≠ "")
    (hcnt : p.content = none) :
    StableState P w1 := by
  obtain ⟨hpf, hpr, hpl, hgl, hgr, hgd, hgn, hgc, hgcp, hgb⟩ :=
    gen_ok_state P w0 _ _ wg effsg p hg
  have hRref : p.remoteUserData.ref = w0.remoteRef := by
    rw [hpr]
    exact getRemoteUserData_ref _ _
  obtain ⟨hTru, hFal⟩ := gen_ok_core P w0 _ _ wg effsg p hg
  rcases hfcc : p.fileContent with _ | fc
  · -- no file content either: the run was a complete no-op
    rw [apply_none_noFile P false wg p hcnt hfcc] at ha
    injection ha with h1 h2
    have hl0 : w0.localFile = none := by rw [← hpf, hfcc]
    have e1 : w1.localFile = w0.localFile := by rw [← h1, hgl]
    have e2 : w1.remoteRef = w0.remoteRef := by rw [← h1, hgr]
    have e3 : w1.remoteData = w0.remoteData := by rw [← h1, hgd]
    have e4 : w1.checkpoint = w0.checkpoint := by rw [← h1, hgcp]
    have hst1 : stRcq P w1 = stRcq P w0 := by
      unfold stRcq
      rw [e4, getRemoteUserData_congr w1 w0 _ e2 e3]
    have hst2 : stLq P w1 = stLq P w0 := by
      unfold stLq
      rw [e4]
    have hlc1 : localContentOf w1 = localContentOf w0 := by
      unfold localContentOf
      rw [e1]
    refine ⟨?_, ?_, ?_⟩
    · intro htr hverr
      rw [hst1, hst2, hlc1]
      rw [hst1] at htr
      unfold stRcq at htr
      unfold stRcq stLq
      obtain ⟨-, hc2, -, -, -⟩ := hTru htr
      rw [← hc2]
      exact hcnt
    · intro _
      rw [e1, hl0]
    · intro _
      rw [e1, hl0]
  · -- file content present
    have hl0 : w0.localFile = some fc := by rw [← hpf, hfcc]
    rcases hbq : ((p.lastSyncUserData.map (fun l => l.ref))
        != some p.remoteUserData.ref) with _ | _
    · -- last-sync ref current: no-op; the first run replays
      rw [apply_none_agree P false wg p hcnt hbq] at ha
      injection ha with h1 h2
      have hAB := bne_false_eq _ _ hbq
      rw [hpl, cpToRemote_ref_map, hRref] at hAB
      rcases hcp0 : w0.checkpoint with _ | ⟨r0, sd0⟩
      · rw [hcp0] at hAB
        cases hAB
      · rw [hcp0] at hAB
        simp only [Option.map_some', Option.some.injEq] at hAB
        subst hAB
        have e1 : w1.localFile = w0.localFile := by rw [← h1, hgl]
        have e2 : w1.remoteRef = w0.remoteRef := by rw [← h1, hgr]
        have e3 : w1.remoteData = w0.remoteData := by rw [← h1, hgd]
        have e4 : w1.checkpoint = w0.checkpoint := by rw [← h1, hgcp]
        have hst1 : stRcq P w1 = stRcq P w0 := by
          unfold stRcq
          rw [e4, getRemoteUserData_congr w1 w0 _ e2 e3]
        have hst2 : stLq P w1 = stLq P w0 := by
          unfold stLq
          rw [e4]
        have hlc1 : localContentOf w1 = localContentOf w0 := by
          unfold localContentOf
          rw [e1]
        have hrcq0 : stRcq P w0 = getKeybindingsContent P.perPlatform P.os sd0.content := by
          unfold stRcq genRcq
          rw [hcp0]
          simp [cpToRemote, getRemoteUserData]
        refine ⟨?_, ?_, ?_⟩
        · intro htr hverr
          rw [hst1, hst2, hlc1]
          rw [hst1] at htr
          unfold stRcq at htr
          unfold stRcq stLq
          obtain ⟨-, hc2, -, -, -⟩ := hTru htr
          rw [← hc2]
          exact hcnt
        · intro hfal
          rw [hst1] at hfal
          unfold stRcq at hfal
          obtain ⟨hsomeF, -⟩ := hFal hfal
          obtain ⟨hc0, -, -, -⟩ := hsomeF fc hl0
          rw [hcnt] at hc0
          cases hc0
        · intro hne3
          rw [e4, hcp0] at hne3
          simp only [Option.map_some', ne_eq, Option.some.injEq] at hne3
          exact absurd e2.symm hne3
    · -- last-sync ref stale: the checkpoint is rewritten to the current ref
      rw [apply_none_disagree P false wg p fc hcnt hfcc hbq] at ha
      injection ha with h1 h2
      have hw1r : w1.remoteRef = p.remoteUserData.ref := by
        rw [← h1]
        show wg.remoteRef = _
        rw [hgr, hRref]
      have hw1cp : w1.checkpoint
          = some (w1.remoteRef,
              { version := bangVersion p.remoteUserData.syncData
                content := toSyncContent P.perPlatform P.os fc.value none }) := by
        rw [hw1r, ← h1]
      have e1 : w1.localFile = some fc := by
        rw [← h1]
        show wg.localFile = _
        rw [hgl, hl0]
      have hlc1 : localContentOf w1 = fc.value := by
        unfold localContentOf
        rw [e1]
      have hcne : fc.value ≠ "" := by
        rw [← hlc1]
        exact hNE
      exact stable_of_cp_self P w1 _ fc.value hw1cp (extract_toSync _ _ _ _) hlc1 hcne

/-- After a successful no-conflict sync round whose preview staged
candidate content, the world is stable provided its local content is
non-empty. -/
theorem after_stable_someContent (P : SyncParams) (w0 wg w1 : World)
    (p : FileSyncPreviewResult) (c : String) (effsg effsa : List Eff)
    (hWF : WFWorld w0)
    (hg : generatePreview P w0 (getRemoteUserData w0 (cpToRemote w0.checkpoint))
            (cpToRemote w0.checkpoint) = (wg, effsg, .ok p))
    (hnc : p.hasConflicts = false)
    (ha : apply P false wg (some p) = (w1, none, effsa, .ok ()))
    (hNE : localContentOf w1 ≠ "")
    (hcnt : p.content = some c) :
    StableState P w1 := by
  obtain ⟨hpf, hpr, hpl, hgl, hgr, hgd, hgn, hgc, hgcp, hgb⟩ :=
    gen_ok_state P w0 _ _ wg effsg p hg
  have hRref : p.remoteUserData.ref = w0.remoteRef := by
    rw [hpr]
    exact getRemoteUserData_ref _ _
  obtain ⟨hTru, hFal⟩ := gen_ok_core P w0 _ _ wg effsg p hg
  obtain ⟨sl, sr, sdq, scp⟩ := apply_ok_spec P false wg p c w1 none effsa hcnt ha
  have hbneNext : ((p.lastSyncUserData.map (fun l => l.ref)) != some wg.nextRef)
      = true := by
    rw [hpl, hgn]
    exact wf_bne_next w0 hWF
  by_cases htr0 : jsTruthy (genRcq P (getRemoteUserData w0 (cpToRemote w0.checkpoint)))
      = true
  · obtain ⟨hverr0, hq1, hq2, hq3, hq4⟩ := hTru htr0
    rcases previewCore_cases P (genRcq P (getRemoteUserData w0 (cpToRemote w0.checkpoint)))
        (genLq P (cpToRemote w0.checkpoint)) (localContentOf w0)
      with hpc | hpc | ⟨hch, hpc⟩
    · simp [hcnt, hpc, PreviewCore.nothing] at hq1
    · simp [hcnt, hpc, PreviewCore.nothing] at hq1
    · rw [hpc] at hq1 hq2 hq3 hq4
      generalize hM : P.mergeFn (localContentOf w0)
        ((genRcq P (getRemoteUserData w0 (cpToRemote w0.checkpoint))).getD "")
        (genLq P (cpToRemote w0.checkpoint)) = m at hq1 hq2 hq3 hq4
      simp only [] at hq1 hq2 hq3 hq4
      rw [hcnt] at hq1
      injection hq1 with hq1
      have hmHC : m.hasConflicts = false := hq4.symm.trans hnc
      rw [hmHC, Bool.false_or] at hq2 hq3
      have hlc1 : localContentOf w1 = c := by
        rcases hlb : p.hasLocalChanged with _ | _ <;>
          simp only [hlb, Bool.false_eq_true, if_false, if_true] at sl
        · have h5 : (!(m.mergeContent == localContentOf w0)) = false :=
            hq2.symm.trans hlb
          rw [Bool.not_eq_false'] at h5
          have hceq : c = localContentOf w0 := hq1.trans (eq_of_beq h5)
          unfold localContentOf
          rw [sl, hgl]
          exact hceq.symm
        · unfold localContentOf
          rw [sl]
      have hcne : c ≠ "" := by
        rw [← hlc1]
        exact hNE
      rcases hrb : p.hasRemoteChanged with _ | _ <;>
        simp only [hrb, Bool.false_eq_true, if_false, if_true] at sr sdq scp
      · -- no remote write: the merge adopted the remote side
        have h6 : (!(m.mergeContent
            == (genRcq P (getRemoteUserData w0 (cpToRemote w0.checkpoint))).getD ""))
            = false := hq3.symm.trans hrb
        rw [Bool.not_eq_false'] at h6
        have hme := eq_of_beq h6
        obtain ⟨rv, hrv, hrvne⟩ := (jsTruthy_iff _).mp htr0
        have hcrv : c = rv := by
          rw [hq1, hme, hrv]
          rfl
        rcases hbq : ((p.lastSyncUserData.map (fun l => l.ref))
            != some p.remoteUserData.ref) with _ | _
        · -- checkpoint already current: no write at all
          rw [if_neg (by simp [hbq])] at scp
          have hAB := bne_false_eq _ _ hbq
          rw [hpl, cpToRemote_ref_map, hRref] at hAB
          rcases hcp0 : w0.checkpoint with _ | ⟨r0, sd0⟩
          · rw [hcp0] at hAB
            cases hAB
          · rw [hcp0] at hAB
            simp only [Option.map_some', Option.some.injEq] at hAB
            subst hAB
            have hrcq0 : genRcq P (getRemoteUserData w0 (cpToRemote w0.checkpoint))
                = getKeybindingsContent P.perPlatform P.os sd0.content := by
              rw [hcp0]
              simp [cpToRemote, getRemoteUserData, genRcq]
            have hx : getKeybindingsContent P.perPlatform P.os sd0.content = some c := by
              rw [← hrcq0, hrv, hcrv]
            have hw1cp : w1.checkpoint = some (w1.remoteRef, sd0) := by
              rw [scp, hgcp, hcp0, sr, hgr]
            exact stable_of_cp_self P w1 sd0 c hw1cp hx hlc1 hcne
        · -- stale checkpoint: rewritten to the current ref
          rw [if_pos hbq] at scp
          have hw1cp : w1.checkpoint = some (w1.remoteRef,
              { version := bangVersion p.remoteUserData.syncData
                content := toSyncContent P.perPlatform P.os c none }) := by
            rw [scp, sr, hgr, ← hRref]
          exact stable_of_cp_self P w1 _ c hw1cp (extract_toSync _ _ _ _) hlc1 hcne
      · -- remote write: checkpoint moves to the fresh ref
        rw [if_pos hbneNext] at scp
        have hw1cp : w1.checkpoint = some (w1.remoteRef,
            { version := engineVersion
              content := toSyncContent P.perPlatform P.os c none }) := by
          rw [scp, sr]
        exact stable_of_cp_self P w1 _ c hw1cp (extract_toSync _ _ _ _) hlc1 hcne
  · -- falsy remote content: a first-time push of the local file
    rw [Bool.not_eq_true] at htr0
    obtain ⟨hsomeF, hnoneF⟩ := hFal htr0
    rcases hl0 : w0.localFile with _ | fc
    · obtain ⟨hc0, -, -, -⟩ := hnoneF hl0
      rw [hcnt] at hc0
      cases hc0
    · obtain ⟨hc0, hlb0, hrb0, -⟩ := hsomeF fc hl0
      rw [hcnt] at hc0
      injection hc0 with hc0
      simp only [hlb0, hrb0, Bool.false_eq_true, if_false, if_true] at sl sr sdq scp
      rw [if_pos hbneNext] at scp
      have hlc1 : localContentOf w1 = c := by
        unfold localContentOf
        rw [sl, hgl, hl0, hc0]
      have hcne : c ≠ "" := by
        rw [← hlc1]
        exact hNE
      have hw1cp : w1.checkpoint = some (w1.remoteRef,
          { version := engineVersion
            content := toSyncContent P.perPlatform P.os c none }) := by
        rw [scp, sr]
      exact stable_of_cp_self P w1 _ c hw1cp (extract_toSync _ _ _ _) hlc1 hcne

/-- `sync()` from an idle, enabled engine: enter the run, fetch the remote
data, run `doSync`, and set the final status. -/
theorem syncOnce_idle_eq (P : SyncParams) (fuel : Nat) (w : World) :
    syncOnce P fuel w esIdle none
      = match doSync engineVersion (performSyncFuel P) fuel w none
          (getRemoteUserData w (cpToRemote w.checkpoint)) (cpToRemote w.checkpoint) with
        | none => none
        | some (w2, pv2, effs2, .ok s) =>
          some (w2, { esIdle with status := s, preview := pv2 },
            [Eff.remoteRead] ++ effs2, .ok ())
        | some (w2, pv2, effs2, .error e) =>
          some (w2, { esIdle with status := .idle, preview := pv2 },
            [Eff.remoteRead] ++ effs2, .error e) := rfl

/-- A successful `generatePreview` staging no candidate content leaves the
world untouched and performs at most a merge call. -/
theorem gen_ok_content_none_world (P : SyncParams) (w : World)
    (remote : RemoteUserData) (lastSync : Option RemoteUserData) (wg : World)
    (effs : List Eff) (p : FileSyncPreviewResult)
    (h : generatePreview P w remote lastSync = (wg, effs, .ok p))
    (hc : p.content = none) :
    wg = w ∧ ∀ e ∈ effs, e = Eff.mergeCall := by
  rw [generatePreview] at h
  split at h
  · rename_i e heq
    injection h with h1 h2
    injection h2 with h2 h3
    cases h3
  · rename_i core heq
    injection h with h1 h2
    injection h2 with h2 h3
    injection h3 with h4
    subst h4
    simp only [] at hc
    constructor
    · rw [← h1]
      simp [hc, jsTruthy]
    · intro e he
      rw [← h2] at he
      simp [hc, jsTruthy] at he
      rcases hm : core.mergeCalled with _ | _ <;> simp [hm] at he
      exact he

/-- On a stable world, one `performSync` step returns the world unchanged
with a cleared preview, performing at most a merge call, and reports
`Idle` or invalid local content. -/
theorem performSync_stable_eq (P : SyncParams) (f : Nat) (w : World)
    (hst : StableState P w) :
    ∃ effsX r, performSyncFuel P (f + 1) w none
        (getRemoteUserData w (cpToRemote w.checkpoint)) (cpToRemote w.checkpoint)
      = some (w, none, effsX, r)
      ∧ (∀ e ∈ effsX, e = Eff.mergeCall)
      ∧ (r = .ok .idle ∨ r = .error .localInvalidContent) := by
  obtain ⟨hs1, hs2, hs3⟩ := hst
  rcases hgen2 : generatePreview P w (getRemoteUserData w (cpToRemote w.checkpoint))
      (cpToRemote w.checkpoint) with ⟨wg2, effsg2, rg2⟩
  rcases rg2 with eg | p
  · obtain ⟨hw, he, hee⟩ := gen_error_eq P w _ _ wg2 effsg2 eg hgen2
    subst hw
    subst he
    subst hee
    refine ⟨[], .error .localInvalidContent, ?_, by simp, Or.inr rfl⟩
    simp only [performSyncFuel]
    rw [hgen2]
    simp only []
    rw [if_neg (by decide)]
  · obtain ⟨hpf, hpr, hpl, -⟩ := gen_ok_state P w _ _ wg2 effsg2 p hgen2
    obtain ⟨hTru, hFal⟩ := gen_ok_core P w _ _ wg2 effsg2 p hgen2
    have hfacts : p.content = none ∧ p.hasConflicts = false := by
      by_cases htr : jsTruthy (stRcq P w) = true
      · have htr2 : jsTruthy (genRcq P (getRemoteUserData w (cpToRemote w.checkpoint)))
            = true := htr
        obtain ⟨hverr, hc2, -, -, hcf2⟩ := hTru htr2
        have hcore := hs1 htr hverr
        unfold stRcq stLq at hcore
        constructor
        · rw [hc2]
          exact hcore
        · rcases previewCore_cases P
              (genRcq P (getRemoteUserData w (cpToRemote w.checkpoint)))
              (genLq P (cpToRemote w.checkpoint)) (localContentOf w)
            with hpcc | hpcc | ⟨-, hpcc⟩
          · rw [hcf2, hpcc]
            rfl
          · rw [hcf2, hpcc]
            rfl
          · rw [hpcc] at hcore
            simp at hcore
      · rw [Bool.not_eq_true] at htr
        have hlf := hs2 htr
        have htr2 : jsTruthy (genRcq P (getRemoteUserData w (cpToRemote w.checkpoint)))
            = false := htr
        obtain ⟨-, hnoneF⟩ := hFal htr2
        obtain ⟨hcn, -, -, hcf⟩ := hnoneF hlf
        exact ⟨hcn, hcf⟩
    obtain ⟨hcnt, hncfl⟩ := hfacts
    obtain ⟨hwg2, heffsub⟩ := gen_ok_content_none_world P w _ _ wg2 effsg2 p hgen2 hcnt
    rw [hwg2] at hgen2
    have happ : apply P false w (some p) = (w, none, [], .ok ()) := by
      by_cases hcpok : w.checkpoint.map (fun x => x.1) = some w.remoteRef
      · refine apply_none_agree P false w p hcnt ?_
        rw [hpl, cpToRemote_ref_map, hcpok, hpr, getRemoteUserData_ref]
        simp
      · have hlf := hs3 hcpok
        exact apply_none_noFile P false w p hcnt (hpf.trans hlf)
    refine ⟨effsg2, .ok .idle, ?_, heffsub, Or.inl rfl⟩
    have hstep : performSyncFuel P (f + 1) w none
        (getRemoteUserData w (cpToRemote w.checkpoint)) (cpToRemote w.checkpoint)
        = some (w, none, effsg2 ++ [], .ok .idle) := by
      simp only [performSyncFuel]
      rw [hgen2]
      simp only [hncfl, Bool.false_eq_true, if_false]
      rw [happ]
    rw [hstep]
    simp

/-- A second `sync()` from a stable world is a no-op: it returns the world
unchanged and performs nothing beyond the remote read and possibly a merge
recomputation. -/
theorem stable_noop (P : SyncParams) (f : Nat) (w : World) (hst : StableState P w) :
    ∃ es2 effs2 r2, syncOnce P (f + 1) w esIdle none = some (w, es2, effs2, r2)
      ∧ ∀ e ∈ effs2, e = Eff.remoteRead ∨ e = Eff.mergeCall := by
  rw [syncOnce_idle_eq]
  by_cases hinc : isIncompatible engineVersion
      (getRemoteUserData w (cpToRemote w.checkpoint)) = true
  · have hds : doSync engineVersion (performSyncFuel P) (f + 1) w none
        (getRemoteUserData w (cpToRemote w.checkpoint)) (cpToRemote w.checkpoint)
        = some (w, none, [], .error .incompatible) := by
      simp [doSync, hinc]
    rw [hds]
    refine ⟨_, _, _, rfl, ?_⟩
    intro e he
    simp at he
    exact Or.inl he
  · obtain ⟨effsX, r, hps, hmem, hr⟩ := performSync_stable_eq P f w hst
    rcases hr with hr | hr
    · subst hr
      have hds : doSync engineVersion (performSyncFuel P) (f + 1) w none
          (getRemoteUserData w (cpToRemote w.checkpoint)) (cpToRemote w.checkpoint)
          = some (w, none, effsX, .ok .idle) := by
        simp only [doSync]
        rw [if_neg hinc, hps]
      rw [hds]
      refine ⟨_, _, _, rfl, ?_⟩
      intro e he
      simp at he
      rcases he with he | he
      · exact Or.inl he
      · exact Or.inr (hmem e he)
    · subst hr
      have hds : doSync engineVersion (performSyncFuel P) (f + 1) w none
          (getRemoteUserData w (cpToRemote w.checkpoint)) (cpToRemote w.checkpoint)
          = some (w, none, effsX, .error .localInvalidContent) := by
        simp only [doSync]
        rw [if_neg hinc, hps]
      rw [hds]
      refine ⟨_, _, _, rfl, ?_⟩
      intro e he
      simp at he
      rcases he with he | he
      · exact Or.inl he
      · exact Or.inr (hmem e he)

/-- An idle-to-idle successful `sync()` run consists of exactly one fetch,
one conflict-free preview and one successful `apply`, and returns the
engine to the idle state with no in-flight preview. -/
theorem syncOnce_ok_idle_inv (P : SyncParams) (fuel : Nat) (w w1 : World)
    (es1 : EngineState) (effs1 : List Eff)
    (h : syncOnce P fuel w esIdle none = some (w1, es1, effs1, .ok ()))
    (hidle : es1.status = .idle) :
    es1 = esIdle
    ∧ ∃ wg effsg p effsa,
        generatePreview P w (getRemoteUserData w (cpToRemote w.checkpoint))
          (cpToRemote w.checkpoint) = (wg, effsg, .ok p)
        ∧ p.hasConflicts = false
        ∧ apply P false wg (some p) = (w1, none, effsa, .ok ()) := by
  rw [syncOnce_idle_eq] at h
  rcases hds : doSync engineVersion (performSyncFuel P) fuel w none
      (getRemoteUserData w (cpToRemote w.checkpoint)) (cpToRemote w.checkpoint)
    with _ | ⟨w2, pv2, effs2, r2⟩
  · rw [hds] at h
    simp at h
  · rw [hds] at h
    rcases r2 with e2 | s2
    · simp at h
    · simp only [Option.some.injEq, Prod.mk.injEq] at h
      obtain ⟨hW, hES, hEF, -⟩ := h
      subst hES
      simp only [] at hidle
      subst hidle
      rcases fuel with _ | f
      · simp only [doSync] at hds
        cases hds
      · simp only [doSync] at hds
        split at hds
        · simp at hds
        · rcases hps : performSyncFuel P (f + 1) w none
              (getRemoteUserData w (cpToRemote w.checkpoint)) (cpToRemote w.checkpoint)
            with _ | ⟨w3, pv3, effs3, r3⟩
          · rw [hps] at hds
            simp at hds
          · rw [hps] at hds
            rcases r3 with e3 | s3
            · have he3 : e3 = .localInvalidContent :=
                performSync_no_rpf P f w _ _ w3 pv3 effs3 e3
                  (getRemoteUserData_ref _ _) hps
              subst he3
              simp at hds
            · simp only [Option.some.injEq, Prod.mk.injEq, Except.ok.injEq] at hds
              obtain ⟨hW3, hPV3, hEF3, hS3⟩ := hds
              subst hS3
              subst hW3
              subst hPV3
              subst hEF3
              obtain ⟨wg, effsg, p, effsa, hgen, hnc, happ, hpv, heff⟩ :=
                performSync_ok_idle_inv P f w _ _ w3 pv3 effs3
                  (getRemoteUserData_ref _ _) hps
              subst hpv
              subst hW
              exact ⟨rfl, wg, effsg, p, effsa, hgen, hnc, happ⟩

/-- C9 (counterexample): the claimed idempotence fails. With an empty local
keybindings file and an empty remote store, the first `sync()` pushes the
empty content and checkpoints it, and a second `sync()` with no intervening
change pushes again: it performs a remote write and moves the checkpoint,
because the empty remote content is JS-falsy and `generatePreview` treats
the state as a first-time push every run. -/
theorem C9_counterexample :
    syncOnce Ptest 2 wC9 esIdle none
      = some (wC9a, esIdle,
          [Eff.remoteRead, Eff.remoteWrite (some 0), Eff.previewDelete,
           Eff.checkpointWrite 1], .ok ())
    ∧ syncOnce Ptest 2 wC9a esIdle none
      = some (wC9b, esIdle,
          [Eff.remoteRead, Eff.remoteWrite (some 1), Eff.previewDelete,
           Eff.checkpointWrite 2], .ok ())
    ∧ Eff.remoteWrite (some 1)
        ∈ [Eff.remoteRead, Eff.remoteWrite (some 1), Eff.previewDelete,
           Eff.checkpointWrite 2]
    ∧ wC9a.checkpoint ≠ wC9b.checkpoint := by
  refine ⟨rfl, rfl, by decide, by decide⟩

/-- C9 (amended): after a `sync()` from an idle engine on a well-formed
world completes successfully with status `Idle`, and provided the resulting
local content is not the empty string, a second `sync()` with no
intervening local or remote change returns the same world — no local
write, no remote write, and an unchanged checkpoint — performing at most
the remote read and a merge recomputation.  (The non-emptiness proviso is
necessary: empty content is re-pushed every run, see the counterexample.) -/
theorem C9_amended (P : SyncParams) (f1 f2 : Nat) (w0 w1 : World)
    (es1 : EngineState) (effs1 : List Eff)
    (hWF : WFWorld w0)
    (h1 : syncOnce P f1 w0 esIdle none = some (w1, es1, effs1, .ok ()))
    (hidle : es1.status = .idle)
    (hNE : localContentOf w1 ≠ "") :
    es1 = esIdle
    ∧ ∃ es2 effs2 r2, syncOnce P (f2 + 1) w1 es1 none = some (w1, es2, effs2, r2)
      ∧ ∀ e ∈ effs2, e = Eff.remoteRead ∨ e = Eff.mergeCall := by
  obtain ⟨hes, wg, effsg, p, effsa, hgen, hnc, happ⟩ :=
    syncOnce_ok_idle_inv P f1 w0 w1 es1 effs1 h1 hidle
  have hstable : StableState P w1 := by
    rcases hcnt : p.content with _ | c
    · exact after_stable_noneContent P w0 wg w1 p effsg effsa hgen happ hNE hcnt
    · exact after_stable_someContent P w0 wg w1 p c effsg effsa hWF hgen hnc happ
        hNE hcnt
  refine ⟨hes, ?_⟩
  rw [hes]
  exact stable_noop P f2 w1 hstable

/-- C9 (witness): the non-empty local file `"[]"` is pushed once; the
second `sync()` returns the world unchanged with only the remote read. -/
theorem C9_amended_witness :
    WFWorld wW9
    ∧ (esIdle = esIdle
       ∧ ∃ es2 effs2 r2, syncOnce Ptest (0 + 1) wW9a esIdle none
           = some (wW9a, es2, effs2, r2)
           ∧ ∀ e ∈ effs2, e = Eff.remoteRead ∨ e = Eff.mergeCall) := by
  have hwf : WFWorld wW9 := ⟨Nat.zero_lt_one, fun r sd h => by cases h⟩
  refine ⟨hwf, ?_⟩
  exact C9_amended Ptest 2 0 wW9 wW9a esIdle
    [Eff.remoteRead, Eff.previewWrite, Eff.remoteWrite (some 0),
     Eff.previewDelete, Eff.checkpointWrite 1]
    hwf rfl rfl (by decide)

end UserDataSync
